import Mathlib

/-!
# otr3: the AKE state machine (auth_state_machine.go)

A shallow embedding of the authenticated-key-exchange handlers of
`auth_state_machine.go`.

Modelling conventions.

* A Go byte slice is a `List Nat` (one entry per byte); a possibly-nil
  `messageWithHeader` is an `Option Bytes`, `none` being Go's `nil`.
* A Go `error` is an `Option OtrError`, `none` being `nil`.
* A Go `*big.Int` is an `Option Int`, `none` being the nil pointer.
* The handlers mutate the conversation through the pointer `c`; here every
  handler takes the conversation and returns the updated one in its `Reply`.
* Dereferencing a nil pointer (`c.ake`, `c.theirKey`, `c.ourKey`) makes the Go
  code abort; a handler then yields `none` and produces no reply at all.
* Functions of the package that live outside the files embedded here
  (framing, Diffie-Hellman and signature processing, the wipes) are the
  fields of `Collab`: the handlers are defined for arbitrary collaborators.
-/

namespace Otr3

/-- A Go byte slice. -/
abbrev Bytes := List Nat

/-- A Go `*big.Int`; `none` is the nil pointer. -/
abbrev BigInt := Option Int

/-- The errors the embedded code can return. `errInvalidOTRMessage` and
`errInvalidVersion` are the package's error values, `unknownMessageType t` is
`newOtrErrorf("unknown message type 0x%X", t)`, and `collaborator n` stands for
an error produced inside a collaborator (for instance a failing random
source). -/
inductive OtrError where
  | errInvalidOTRMessage
  | errInvalidVersion
  | unknownMessageType (msgType : Nat)
  | collaborator (code : Nat)
  deriving DecidableEq, Repr

/-- The four handshake states: `authStateNone`, `authStateAwaitingDHKey`,
`authStateAwaitingRevealSig` and `authStateAwaitingSig`, the last one carrying
the stored reveal-signature message. -/
inductive AuthState where
  | authStateNone
  | authStateAwaitingDHKey
  | authStateAwaitingRevealSig
  | authStateAwaitingSig (revealSigMsg : Option Bytes)
  deriving DecidableEq, Repr

/-- The message state of a conversation. -/
inductive MsgState where
  | plainText
  | encrypted
  | finished
  deriving DecidableEq, Repr

/-- The security events `akeHasFinished` can signal. -/
inductive SecurityEvent where
  | GoneSecure
  | StillSecure
  deriving DecidableEq, Repr

/-- The message events `akeHasFinished` can raise. -/
inductive MessageEvent where
  | MessageEventMessageReflected
  deriving DecidableEq, Repr

/-- An entry of the event log of a conversation. -/
inductive Event where
  | security (e : SecurityEvent)
  | message (e : MessageEvent)
  deriving DecidableEq, Repr

/-- The negotiated protocol version (`otrV2{}` or `otrV3{}`). -/
inductive OtrVersion where
  | otrV2
  | otrV3
  deriving DecidableEq, Repr

/-- A DH key pair of the key-management context. -/
structure DhKeyPair where
  pub : BigInt
  priv : BigInt
  deriving DecidableEq, Repr

/-- Modelled from the spec: the key-management context, whose type
declaration is not part of the embedded files. The source names
`ourCurrentDHKeys` and `ourCounter`; the spec adds the previous key pair, the
peer's current and previous public values and the keys kept for a reveal.
`ourCounter` is a Go `uint64`. -/
structure KeyManagementContext where
  ourKeyID : Nat
  theirKeyID : Nat
  ourCurrentDHKeys : DhKeyPair
  ourPreviousDHKeys : DhKeyPair
  theirCurrentDHPubKey : BigInt
  theirPreviousDHPubKey : BigInt
  ourCounter : Nat
  revealKeys : List Bytes
  deriving DecidableEq, Repr

/-- Modelled from the spec: the AKE context behind the pointer `c.ake`, whose
type declaration is not part of the embedded files. The source names `state`,
`secretExponent`, `ourPublicValue` and `theirPublicValue`; the spec adds the
encrypted and hashed commitment. -/
structure Ake where
  state : AuthState
  secretExponent : BigInt
  ourPublicValue : BigInt
  theirPublicValue : BigInt
  encryptedGx : Bytes
  hashedGx : Bytes
  deriving DecidableEq, Repr

/-- A long-term private key; only its public half is read by the handlers. -/
structure PrivateKey where
  PublicKey : Nat
  deriving DecidableEq, Repr

/-- Modelled from the spec: the conversation, whose type declaration is not
part of the embedded files. It holds the fields the embedded files read or
write, the remaining stream of the random source `rand`, and the log `events`
of the security and message events signalled so far (the event sink of the
spec). `ake`, `ourKey` and `theirKey` are pointers in the source. -/
structure Conversation where
  version : Option OtrVersion
  Policies : Nat
  msgState : MsgState
  ourInstanceTag : Nat
  theirInstanceTag : Nat
  ourKey : Option PrivateKey
  theirKey : Option Nat
  keys : KeyManagementContext
  ake : Option Ake
  sentRevealSig : Bool
  rand : List Nat
  events : List Event
  deriving DecidableEq, Repr

deriving instance DecidableEq for Except

/-- What a handler returns: the conversation after the call, and the three
results `(authState, messageWithHeader, error)` of the Go method. -/
structure Reply where
  conv : Conversation
  state : AuthState
  msg : Option Bytes
  err : Option OtrError
  deriving DecidableEq, Repr

/-- The functions of the package that the embedded files call and do not
define. A method on `*Conversation` that may write to the conversation returns
the updated conversation; the serialisers and the framer only read it. -/
structure Collab where
  /-- The method `c.randMPI(buf)`, with `len(buf)` as argument. -/
  randMPI : Conversation → Nat → Conversation × Except OtrError Int
  /-- The method `keys.generateNewDHKeyPair(x)`. -/
  keysGenerateNewDHKeyPair : KeyManagementContext → Int → KeyManagementContext
  /-- The method `keys.wipeAndKeepRevealKeys()`. -/
  wipeAndKeepRevealKeys : KeyManagementContext → KeyManagementContext
  /-- The method `keys.setTheirCurrentDHPubKey(pub)`. -/
  setTheirCurrentDHPubKey : KeyManagementContext → BigInt → KeyManagementContext
  /-- The method `keys.setOurCurrentDHKeys(priv, pub)`. -/
  setOurCurrentDHKeys : KeyManagementContext → BigInt → BigInt → KeyManagementContext
  /-- The method `ake.wipe()`. -/
  akeWipe : Ake → Ake
  /-- The method `ake.wipeGX()`. -/
  akeWipeGX : Ake → Ake
  /-- The method `c.dhKeyMessage()`. -/
  dhKeyMessage : Conversation → Conversation × Except OtrError Bytes
  /-- The method `c.wrapMessageHeader(msgType, body)`. -/
  wrapMessageHeader : Conversation → Nat → Bytes → Except OtrError Bytes
  /-- The method `c.processDHCommit(msg)`. -/
  processDHCommit : Conversation → Bytes → Conversation × Option OtrError
  /-- The method `c.serializeDHKey()`. -/
  serializeDHKey : Conversation → Bytes
  /-- The method `c.serializeDHCommit(public)`. -/
  serializeDHCommit : Conversation → BigInt → Bytes
  /-- The function `extractData(d)`, returning `(rest, data, ok)`. -/
  extractData : Bytes → Bytes × Bytes × Bool
  /-- The function `appendMPI(l, x)`. -/
  appendMPI : Bytes → BigInt → Bytes
  /-- The digest `sha256.Sum256`. -/
  sha256Sum256 : Bytes → Bytes
  /-- The method `c.processDHKey(msg)`, returning `(isSame, err)`. -/
  processDHKey : Conversation → Bytes → Conversation × Bool × Option OtrError
  /-- The method `c.revealSigMessage()`. -/
  revealSigMessage : Conversation → Conversation × Except OtrError Bytes
  /-- The method `c.processRevealSig(msg)`. -/
  processRevealSig : Conversation → Bytes → Conversation × Option OtrError
  /-- The method `c.sigMessage()`. -/
  sigMessage : Conversation → Conversation × Except OtrError Bytes
  /-- The method `c.processSig(msg)`. -/
  processSig : Conversation → Bytes → Conversation × Option OtrError
  /-- The method `c.maybeRetransmit()`. -/
  maybeRetransmit : Conversation → Conversation × Option Bytes × Option OtrError

/-- The OTR message type byte of a DH-Commit message. -/
def msgTypeDHCommit : Nat := 0x02
/-- The OTR message type byte of a DH-Key message. -/
def msgTypeDHKey : Nat := 0x0a
/-- The OTR message type byte of a Reveal-Signature message. -/
def msgTypeRevealSig : Nat := 0x11
/-- The OTR message type byte of a Signature message. -/
def msgTypeSig : Nat := 0x12

/-- Go's `bytes.Compare`: lexicographic comparison, `-1`, `0` or `1`. -/
def bytesCompare : Bytes → Bytes → Int
  | [], [] => 0
  | [], _ :: _ => -1
  | _ :: _, [] => 1
  | x :: xs, y :: ys => if x < y then -1 else if y < x then 1 else bytesCompare xs ys

/-- Modelled from the spec: the event sink behind `c.signalSecurityEventIf`,
which is not part of the embedded files: the event is appended to the log
when the condition holds. -/
def signalSecurityEventIf (c : Conversation) (cond : Bool) (e : SecurityEvent) : Conversation :=
  if cond then { c with events := c.events ++ [Event.security e] } else c

/-- Modelled from the spec: the event sink behind `c.messageEvent`, which is
not part of the embedded files: the event is appended to the log. -/
def messageEvent (c : Conversation) (e : MessageEvent) : Conversation :=
  { c with events := c.events ++ [Event.message e] }

/-- The fresh AKE context `ensureAKE` constructs: state `authStateNone`, no
key material. -/
def initAKE : Ake :=
  { state := .authStateNone, secretExponent := none, ourPublicValue := none,
    theirPublicValue := none, encryptedGx := [], hashedGx := [] }

/-- Modelled from the spec: `c.ensureAKE()`, which is not part of the embedded
files: "ensures an AKE context exists (lazily constructs one the first time
any handshake message arrives)", the handshake state being "created in
Idle". -/
def ensureAKE (c : Conversation) : Conversation :=
  match c.ake with
  | some _ => c
  | none => { c with ake := some initAKE }

/-- Modelled from the spec: `compactMessagesWithHeader`, which is not part of
the embedded files: the batch of the non-nil messages, in the order given. -/
def compactMessagesWithHeader (msgs : List (Option Bytes)) : List Bytes :=
  msgs.filterMap id

/-- The method `Conversation.generateNewDHKeyPair`, returning the error. -/
def generateNewDHKeyPair (E : Collab) (c : Conversation) : Conversation × Option OtrError :=
  match E.randMPI c 40 with
  | (c1, .error e) => (c1, some e)
  | (c1, .ok x) => ({ c1 with keys := E.keysGenerateNewDHKeyPair c1.keys x }, none)

/-- The method `Conversation.akeHasFinished`. The two deferred calls run after
the return value has been computed, the one deferred last first. -/
def akeHasFinished (E : Collab) (c : Conversation) : Option (Conversation × Option OtrError) :=
  match c.ake with
  | none => none
  | some a =>
    let c1 := { c with ake := some (E.akeWipe a) }
    let previousMsgState := c1.msgState
    let c2 := { c1 with msgState := MsgState.encrypted }
    match c2.ourKey, c2.theirKey with
    | some ourKey, some theirKey =>
      let c3 := if ourKey.PublicKey = theirKey then
        messageEvent c2 MessageEvent.MessageEventMessageReflected else c2
      let r := generateNewDHKeyPair E c3
      let c4 := signalSecurityEventIf r.1 (previousMsgState == MsgState.encrypted)
        SecurityEvent.StillSecure
      let c5 := signalSecurityEventIf c4 (previousMsgState != MsgState.encrypted)
        SecurityEvent.GoneSecure
      some (c5, r.2)
    | _, _ => none

/-- The method `authStateNone.receiveDHCommitMessage`; its receiver `s` is
`authStateNone{}`. -/
def authStateNone.receiveDHCommitMessage (E : Collab) (c : Conversation) (msg : Bytes) :
    Option Reply :=
  match c.ake with
  | none => none
  | some a =>
    let c1 := { c with keys := E.wipeAndKeepRevealKeys c.keys, ake := some (E.akeWipe a) }
    match E.dhKeyMessage c1 with
    | (c2, .error e) => some ⟨c2, .authStateNone, none, some e⟩
    | (c2, .ok dhKeyMsg) =>
      match E.wrapMessageHeader c2 msgTypeDHKey dhKeyMsg with
      | .error e => some ⟨c2, .authStateNone, none, some e⟩
      | .ok dhKeyMsg =>
        match E.processDHCommit c2 msg with
        | (c3, some e) => some ⟨c3, .authStateNone, none, some e⟩
        | (c3, none) => some ⟨c3, .authStateAwaitingRevealSig, some dhKeyMsg, none⟩

/-- The method `authStateBase.receiveDHCommitMessage`, promoted to every state
that does not define its own: it runs the handler of `authStateNone{}`. -/
def authStateBase.receiveDHCommitMessage (E : Collab) (c : Conversation) (msg : Bytes) :
    Option Reply :=
  authStateNone.receiveDHCommitMessage E c msg

/-- The method `authStateAwaitingRevealSig.receiveDHCommitMessage`. -/
def authStateAwaitingRevealSig.receiveDHCommitMessage (E : Collab) (c : Conversation)
    (msg : Bytes) : Option Reply :=
  match c.ake with
  | none => none
  | some a =>
    let c1 := { c with keys := E.wipeAndKeepRevealKeys c.keys, ake := some (E.akeWipeGX a) }
    match E.processDHCommit c1 msg with
    | (c2, some e) => some ⟨c2, .authStateAwaitingRevealSig, none, some e⟩
    | (c2, none) =>
      match E.wrapMessageHeader c2 msgTypeDHKey (E.serializeDHKey c2) with
      | .error e => some ⟨c2, .authStateAwaitingRevealSig, none, some e⟩
      | .ok dhKeyMsg => some ⟨c2, .authStateAwaitingRevealSig, some dhKeyMsg, none⟩

/-- The method `authStateAwaitingDHKey.receiveDHCommitMessage`. -/
def authStateAwaitingDHKey.receiveDHCommitMessage (E : Collab) (c : Conversation)
    (msg : Bytes) : Option Reply :=
  let r1 := E.extractData msg
  let r2 := E.extractData r1.1
  let theirHashedGx := r2.2.1
  if !r1.2.2 || !r2.2.2 then
    some ⟨c, .authStateAwaitingDHKey, none, some .errInvalidOTRMessage⟩
  else
    match c.ake with
    | none => none
    | some a =>
      let gxMPI := E.appendMPI [] a.theirPublicValue
      let hashedGx := E.sha256Sum256 gxMPI
      if bytesCompare hashedGx theirHashedGx = 1 then
        match E.wrapMessageHeader c msgTypeDHCommit (E.serializeDHCommit c a.theirPublicValue) with
        | .error e => some ⟨c, .authStateAwaitingDHKey, none, some e⟩
        | .ok dhCommitMsg => some ⟨c, .authStateAwaitingRevealSig, some dhCommitMsg, none⟩
      else
        authStateNone.receiveDHCommitMessage E c msg

/-- Dispatch of `receiveDHCommitMessage` on the dynamic type of the receiver.
`authStateAwaitingSig` defines no method of its own and gets the one of
`authStateBase`. -/
def receiveDHCommitMessage (E : Collab) (s : AuthState) (c : Conversation) (msg : Bytes) :
    Option Reply :=
  match s with
  | .authStateNone => authStateNone.receiveDHCommitMessage E c msg
  | .authStateAwaitingDHKey => authStateAwaitingDHKey.receiveDHCommitMessage E c msg
  | .authStateAwaitingRevealSig => authStateAwaitingRevealSig.receiveDHCommitMessage E c msg
  | .authStateAwaitingSig _ => authStateBase.receiveDHCommitMessage E c msg

/-- The method `authStateAwaitingDHKey.receiveDHKeyMessage`. `ourCounter` is a
`uint64`, so the increment wraps at `2^64`. -/
def authStateAwaitingDHKey.receiveDHKeyMessage (E : Collab) (c : Conversation) (msg : Bytes) :
    Option Reply :=
  match E.processDHKey c msg with
  | (c1, _, some e) => some ⟨c1, .authStateAwaitingDHKey, none, some e⟩
  | (c1, _, none) =>
    match E.revealSigMessage c1 with
    | (c2, .error e) => some ⟨c2, .authStateAwaitingDHKey, none, some e⟩
    | (c2, .ok revealSigMsg) =>
      match E.wrapMessageHeader c2 msgTypeRevealSig revealSigMsg with
      | .error e => some ⟨c2, .authStateAwaitingDHKey, none, some e⟩
      | .ok revealSigMsg =>
        match c2.ake with
        | none => none
        | some a =>
          let k1 := E.setTheirCurrentDHPubKey c2.keys a.theirPublicValue
          let k2 := E.setOurCurrentDHKeys k1 a.secretExponent a.ourPublicValue
          let k3 := { k2 with ourCounter := (k2.ourCounter + 1) % 2 ^ 64 }
          let c3 := { c2 with keys := k3, sentRevealSig := true }
          some ⟨c3, .authStateAwaitingSig (some revealSigMsg), some revealSigMsg, none⟩

/-- The method `authStateAwaitingSig.receiveDHKeyMessage`; `s` is the receiver
and `revealSigMsg` its stored message. -/
def authStateAwaitingSig.receiveDHKeyMessage (E : Collab) (revealSigMsg : Option Bytes)
    (c : Conversation) (msg : Bytes) : Option Reply :=
  match E.processDHKey c msg with
  | (c1, _, some e) => some ⟨c1, .authStateAwaitingSig revealSigMsg, none, some e⟩
  | (c1, isSame, none) =>
    if isSame then some ⟨c1, .authStateAwaitingSig revealSigMsg, revealSigMsg, none⟩
    else some ⟨c1, .authStateAwaitingSig revealSigMsg, none, none⟩

/-- Dispatch of `receiveDHKeyMessage`; `authStateNone` and
`authStateAwaitingRevealSig` return `s, nil, nil`. -/
def receiveDHKeyMessage (E : Collab) (s : AuthState) (c : Conversation) (msg : Bytes) :
    Option Reply :=
  match s with
  | .authStateNone => some ⟨c, .authStateNone, none, none⟩
  | .authStateAwaitingRevealSig => some ⟨c, .authStateAwaitingRevealSig, none, none⟩
  | .authStateAwaitingDHKey => authStateAwaitingDHKey.receiveDHKeyMessage E c msg
  | .authStateAwaitingSig r => authStateAwaitingSig.receiveDHKeyMessage E r c msg

/-- The method `authStateAwaitingRevealSig.receiveRevealSigMessage`. -/
def authStateAwaitingRevealSig.receiveRevealSigMessage (E : Collab) (c : Conversation)
    (msg : Bytes) : Option Reply :=
  match E.processRevealSig c msg with
  | (c1, some e) => some ⟨c1, .authStateAwaitingRevealSig, none, some e⟩
  | (c1, none) =>
    match E.sigMessage c1 with
    | (c2, .error e) => some ⟨c2, .authStateAwaitingRevealSig, none, some e⟩
    | (c2, .ok sigMsg) =>
      match E.wrapMessageHeader c2 msgTypeSig sigMsg with
      | .error e => some ⟨c2, .authStateAwaitingRevealSig, none, some e⟩
      | .ok sigMsg =>
        match c2.ake with
        | none => none
        | some a =>
          let k1 := E.setTheirCurrentDHPubKey c2.keys a.theirPublicValue
          let k2 := E.setOurCurrentDHKeys k1 a.secretExponent a.ourPublicValue
          let k3 := { k2 with ourCounter := (k2.ourCounter + 1) % 2 ^ 64 }
          let c3 := { c2 with keys := k3, sentRevealSig := false }
          match akeHasFinished E c3 with
          | none => none
          | some (c4, err) => some ⟨c4, .authStateNone, some sigMsg, err⟩

/-- Dispatch of `receiveRevealSigMessage`; every state but
`authStateAwaitingRevealSig` returns `s, nil, nil`. -/
def receiveRevealSigMessage (E : Collab) (s : AuthState) (c : Conversation) (msg : Bytes) :
    Option Reply :=
  match s with
  | .authStateNone => some ⟨c, .authStateNone, none, none⟩
  | .authStateAwaitingRevealSig => authStateAwaitingRevealSig.receiveRevealSigMessage E c msg
  | .authStateAwaitingDHKey => some ⟨c, .authStateAwaitingDHKey, none, none⟩
  | .authStateAwaitingSig r => some ⟨c, .authStateAwaitingSig r, none, none⟩

/-- The method `authStateAwaitingSig.receiveSigMessage`. -/
def authStateAwaitingSig.receiveSigMessage (E : Collab) (revealSigMsg : Option Bytes)
    (c : Conversation) (msg : Bytes) : Option Reply :=
  match E.processSig c msg with
  | (c1, some e) => some ⟨c1, .authStateAwaitingSig revealSigMsg, none, some e⟩
  | (c1, none) =>
    match c1.ake with
    | none => none
    | some a =>
      let c2 := { c1 with keys := E.setTheirCurrentDHPubKey c1.keys a.theirPublicValue }
      match akeHasFinished E c2 with
      | none => none
      | some (c3, err) => some ⟨c3, .authStateNone, none, err⟩

/-- Dispatch of `receiveSigMessage`; every state but `authStateAwaitingSig`
returns `s, nil, nil`. -/
def receiveSigMessage (E : Collab) (s : AuthState) (c : Conversation) (msg : Bytes) :
    Option Reply :=
  match s with
  | .authStateNone => some ⟨c, .authStateNone, none, none⟩
  | .authStateAwaitingRevealSig => some ⟨c, .authStateAwaitingRevealSig, none, none⟩
  | .authStateAwaitingDHKey => some ⟨c, .authStateAwaitingDHKey, none, none⟩
  | .authStateAwaitingSig r => authStateAwaitingSig.receiveSigMessage E r c msg

/-- The assignment `c.ake.state = s` after a handler has returned. -/
def setAuthState (c : Conversation) (s : AuthState) : Option Conversation :=
  match c.ake with
  | none => none
  | some a => some { c with ake := some { a with state := s } }

/-- What `processAKE` returns: the conversation after the call, the batch
`toSend` and the error. -/
structure AkeResult where
  conv : Conversation
  toSend : List Bytes
  err : Option OtrError
  deriving DecidableEq, Repr

/-- One case of the switch of `processAKE`: run the handler on the current
state, store the state it returns, and, when `retransmit` is set, call
`c.maybeRetransmit()` and discard its error. -/
def runHandler (E : Collab) (handler : Collab → AuthState → Conversation → Bytes → Option Reply)
    (retransmit : Bool) (c : Conversation) (msg : Bytes) : Option AkeResult :=
  match c.ake with
  | none => none
  | some a =>
    match handler E a.state c msg with
    | none => none
    | some r =>
      match setAuthState r.conv r.state with
      | none => none
      | some c1 =>
        if retransmit then
          let x := E.maybeRetransmit c1
          some ⟨x.1, compactMessagesWithHeader [r.msg, x.2.1], r.err⟩
        else
          some ⟨c1, compactMessagesWithHeader [r.msg, none], r.err⟩

/-- The method `Conversation.processAKE`. -/
def processAKE (E : Collab) (c : Conversation) (msgType : Nat) (msg : Bytes) : Option AkeResult :=
  let c0 := ensureAKE c
  if msgType = msgTypeDHCommit then runHandler E receiveDHCommitMessage false c0 msg
  else if msgType = msgTypeDHKey then runHandler E receiveDHKeyMessage false c0 msg
  else if msgType = msgTypeRevealSig then runHandler E receiveRevealSigMessage true c0 msg
  else if msgType = msgTypeSig then runHandler E receiveSigMessage true c0 msg
  else some ⟨c0, compactMessagesWithHeader [none, none], some (.unknownMessageType msgType)⟩

/-! ## Reference collaborators

The functions behind `Collab` are not part of the embedded files. The
definitions below follow the words of the spec for each of them, so that the
handlers can be run on concrete conversations. Framing, the Diffie-Hellman
step and SHA-256 are computed for real; signing, encryption and MAC
computation are outside the model, and the two validators accept a payload
exactly when its length-prefixed fields can be extracted. -/

/-- The modulus of the Diffie-Hellman group of the protocol (the 1536-bit MODP
group). The embedded files only name the constant `p`; the fixtures of the
test file satisfy `fixtureGy = g1 ^ fixtureY mod p` for this value. -/
def p : Nat :=
  0xFFFFFFFFFFFFFFFFC90FDAA22168C234C4C6628B80DC1CD129024E088A67CC74020BBEA63B139B22514A08798E3404DDEF9519B3CD3A431B302B0A6DF25F14374FE1356D6D51C245E485B576625E7EC6F44C42E9A637ED6B0BFF5CB6F406B7EDEE386BFB5A899FA5AE9F24117C4B1FE649286651ECE45B3DC2007CB8A163BF0598DA48361C55D39A69163FA8FD24CF5F83655D23DCA3AD961C62F356208552BB9ED529077096966D670C354E4ABC9804F1746C08CA237327FFFFFFFFFFFFFFFF

/-- The generator of the Diffie-Hellman group of the protocol. -/
def g1 : Nat := 2

/-- Square-and-multiply, structurally recursive on `fuel`. -/
def modExpFuel : Nat → Nat → Nat → Nat → Nat
  | 0, _, _, m => 1 % m
  | fuel + 1, b, e, m =>
    if e = 0 then 1 % m
    else
      let h := modExpFuel fuel (b * b % m) (e / 2) m
      if e % 2 = 1 then b * h % m else h

/-- Modelled from the spec: the group exponentiation `modExp(g, x)` of the DH
primitive provider, `g ^ x mod p`, which is not part of the embedded files. -/
def modExp (g x : Nat) : Nat := modExpFuel x g x p

/-- The four big-endian bytes of a 32-bit word. -/
def wordBytes (x : Nat) : Bytes :=
  [x / 16777216 % 256, x / 65536 % 256, x / 256 % 256, x % 256]

/-- Modelled from the spec: `appendData`, which is not part of the embedded
files: a length-prefixed field, the length being a 32-bit big-endian word. -/
def appendData (l d : Bytes) : Bytes := l ++ wordBytes d.length ++ d

/-- Modelled from the spec: `extractWord`, which is not part of the embedded
files: reads a 32-bit big-endian word. -/
def extractWord : Bytes → Bytes × Nat × Bool
  | a :: b :: c :: d :: rest => (rest, ((a * 256 + b) * 256 + c) * 256 + d, true)
  | _ => ([], 0, false)

/-- Modelled from the spec: `extractData`, which is not part of the embedded
files: the `extract_length_prefixed_field` of the message framer, returning the
rest of the input, the field and whether the field was complete. -/
def extractData (d : Bytes) : Bytes × Bytes × Bool :=
  let w := extractWord d
  if !w.2.2 || w.1.length < w.2.1 then (d, [], false)
  else (w.1.drop w.2.1, w.1.take w.2.1, true)

/-- The big-endian bytes of a natural number, most significant first, without
leading zeros; structurally recursive on `fuel`. -/
def natBytesFuel : Nat → Nat → Bytes → Bytes
  | 0, _, acc => acc
  | fuel + 1, n, acc => if n = 0 then acc else natBytesFuel fuel (n / 256) (n % 256 :: acc)

/-- The bytes `x.Bytes()` of a big integer: the big-endian absolute value. -/
def natBytes (n : Nat) : Bytes := natBytesFuel n n []

/-- The natural number a big-endian byte string stands for. -/
def bytesToNat (b : Bytes) : Nat := b.foldl (fun acc x => acc * 256 + x) 0

/-- Modelled from the spec: `appendMPI`, which is not part of the embedded
files: the big-integer encoding (MPI), a length-prefixed field holding the
big-endian bytes of the value. A nil pointer is encoded like zero. -/
def appendMPI (l : Bytes) (x : BigInt) : Bytes :=
  match x with
  | none => appendData l []
  | some v => appendData l (natBytes v.natAbs)

/-- Modelled from the spec: `extractMPI`, which is not part of the embedded
files: the inverse of `appendMPI`. -/
def extractMPI (d : Bytes) : Bytes × Int × Bool :=
  let r := extractData d
  (r.1, (bytesToNat r.2.1 : Int), r.2.2)

/-- Reduction of a natural number to a 32-bit word. -/
def w32 (x : Nat) : Nat := x % 4294967296

/-- Rotation of a 32-bit word to the right. -/
def rotr (x n : Nat) : Nat := w32 ((x >>> n) ||| (x <<< (32 - n)))

/-- The round constants of SHA-256. -/
def sha256K : List Nat := [
  0x428a2f98, 0x71374491, 0xb5c0fbcf, 0xe9b5dba5, 0x3956c25b, 0x59f111f1, 0x923f82a4, 0xab1c5ed5,
  0xd807aa98, 0x12835b01, 0x243185be, 0x550c7dc3, 0x72be5d74, 0x80deb1fe, 0x9bdc06a7, 0xc19bf174,
  0xe49b69c1, 0xefbe4786, 0x0fc19dc6, 0x240ca1cc, 0x2de92c6f, 0x4a7484aa, 0x5cb0a9dc, 0x76f988da,
  0x983e5152, 0xa831c66d, 0xb00327c8, 0xbf597fc7, 0xc6e00bf3, 0xd5a79147, 0x06ca6351, 0x14292967,
  0x27b70a85, 0x2e1b2138, 0x4d2c6dfc, 0x53380d13, 0x650a7354, 0x766a0abb, 0x81c2c92e, 0x92722c85,
  0xa2bfe8a1, 0xa81a664b, 0xc24b8b70, 0xc76c51a3, 0xd192e819, 0xd6990624, 0xf40e3585, 0x106aa070,
  0x19a4c116, 0x1e376c08, 0x2748774c, 0x34b0bcb5, 0x391c0cb3, 0x4ed8aa4a, 0x5b9cca4f, 0x682e6ff3,
  0x748f82ee, 0x78a5636f, 0x84c87814, 0x8cc70208, 0x90befffa, 0xa4506ceb, 0xbef9a3f7, 0xc67178f2]

/-- The initial hash value of SHA-256. -/
def sha256Init : List Nat := [0x6a09e667, 0xbb67ae85, 0x3c6ef372, 0xa54ff53a,
  0x510e527f, 0x9b05688c, 0x1f83d9ab, 0x5be0cd19]

/-- The big-endian 32-bit words of a byte string. -/
def toWords : Bytes → List Nat
  | a :: b :: c :: d :: rest => (((a * 256 + b) * 256 + c) * 256 + d) :: toWords rest
  | _ => []

/-- The padding of SHA-256: a one bit, zeros, and the bit length on 64 bits. -/
def sha256Pad (m : Bytes) : Bytes :=
  let bits := m.length * 8
  m ++ [0x80] ++ List.replicate ((119 - m.length % 64) % 64) 0
    ++ wordBytes (bits / 4294967296 % 4294967296) ++ wordBytes (bits % 4294967296)

/-- The message schedule of SHA-256: `ws` holds the words computed so far,
the newest first, and `n` more are added. -/
def sha256Schedule : Nat → List Nat → List Nat
  | 0, ws => ws
  | n + 1, ws =>
    match ws with
    | _ :: w2 :: _ :: _ :: _ :: _ :: w7 :: _ :: _ :: _ :: _ :: _ :: _ :: _ :: w15 :: w16 :: _ =>
      let s0 := rotr w15 7 ^^^ rotr w15 18 ^^^ (w15 >>> 3)
      let s1 := rotr w2 17 ^^^ rotr w2 19 ^^^ (w2 >>> 10)
      sha256Schedule n (w32 (w16 + s0 + w7 + s1) :: ws)
    | _ => ws

/-- One round of the compression function of SHA-256 on the working
variables, given a round constant and a schedule word. -/
def sha256Round (st : List Nat) (kw : Nat × Nat) : List Nat :=
  match st with
  | [a, b, c, d, e, f, g, h] =>
    let s1 := rotr e 6 ^^^ rotr e 11 ^^^ rotr e 25
    let ch := (e &&& f) ^^^ ((4294967295 - e) &&& g)
    let t1 := w32 (h + s1 + ch + kw.1 + kw.2)
    let s0 := rotr a 2 ^^^ rotr a 13 ^^^ rotr a 22
    let maj := (a &&& b) ^^^ (a &&& c) ^^^ (b &&& c)
    let t2 := w32 (s0 + maj)
    [w32 (t1 + t2), a, b, c, w32 (d + t1), e, f, g]
  | _ => st

/-- The compression function of SHA-256 on one block of sixteen words. -/
def sha256Compress (h : List Nat) (block : List Nat) : List Nat :=
  let ws := (sha256Schedule 48 block.reverse).reverse
  List.zipWith (fun x y => w32 (x + y)) h ((sha256K.zip ws).foldl sha256Round h)

/-- The blocks of sixteen words of a padded message. -/
def sha256Blocks : Nat → List Nat → List (List Nat)
  | 0, _ => []
  | n + 1, ws => if ws = [] then [] else ws.take 16 :: sha256Blocks n (ws.drop 16)

/-- The digest `sha256.Sum256` of the Go standard library (FIPS 180-4). -/
def sha256Sum256 (m : Bytes) : Bytes :=
  let ws := toWords (sha256Pad m)
  ((sha256Blocks ws.length ws).foldl sha256Compress sha256Init).flatMap wordBytes

/-- Modelled from the spec: `c.randMPI(buf)`, which is not part of the embedded
files: fills the buffer from the random source and reads it as a big-endian
integer; the call fails (`RandomnessFailure`) when the source delivers fewer
bytes than asked for. -/
def refRandMPI (c : Conversation) (n : Nat) : Conversation × Except OtrError Int :=
  if c.rand.length < n then ({ c with rand := [] }, .error (.collaborator 1))
  else ({ c with rand := c.rand.drop n }, .ok (bytesToNat (c.rand.take n)))

/-- Modelled from the spec: `keys.generateNewDHKeyPair(x)`, which is not part
of the embedded files: the current key pair becomes the previous one and the
pair of `x` becomes the current one. -/
def refKeysGenerateNewDHKeyPair (k : KeyManagementContext) (x : Int) : KeyManagementContext :=
  { k with ourPreviousDHKeys := k.ourCurrentDHKeys,
           ourCurrentDHKeys := { pub := some (modExp g1 x.natAbs), priv := some x },
           ourKeyID := k.ourKeyID + 1 }

/-- Modelled from the spec: `keys.wipeAndKeepRevealKeys()`, which is not part
of the embedded files: "discards only forward material not needed to answer an
in-flight reveal". -/
def refWipeAndKeepRevealKeys (k : KeyManagementContext) : KeyManagementContext :=
  { ourKeyID := 0, theirKeyID := 0,
    ourCurrentDHKeys := { pub := none, priv := none },
    ourPreviousDHKeys := { pub := none, priv := none },
    theirCurrentDHPubKey := none, theirPreviousDHPubKey := none,
    ourCounter := 0, revealKeys := k.revealKeys }

/-- Modelled from the spec: `ake.wipe()`, which is not part of the embedded
files: "overwrites and discards all ephemeral secret material". -/
def refAkeWipe (a : Ake) : Ake :=
  { a with secretExponent := none, ourPublicValue := none, theirPublicValue := none,
           encryptedGx := [], hashedGx := [] }

/-- Modelled from the spec: `ake.wipeGX()`, which is not part of the embedded
files: the `wipe_their_public_value_only` of the spec, "used when only the
peer's contribution must be forgotten". -/
def refAkeWipeGX (a : Ake) : Ake :=
  { a with theirPublicValue := none }

/-- Modelled from the spec: `c.serializeDHKey()`, which is not part of the
embedded files: the body of a DH-Key message, our public value as an MPI. -/
def refSerializeDHKey (c : Conversation) : Bytes :=
  match c.ake with
  | none => appendMPI [] none
  | some a => appendMPI [] a.ourPublicValue

/-- Modelled from the spec: `c.dhKeyMessage()`, which is not part of the
embedded files: `generate_keypair(randomness)` of the DH primitive provider,
stored in the AKE context, and the DH-Key body for it. -/
def refDhKeyMessage (c : Conversation) : Conversation × Except OtrError Bytes :=
  match refRandMPI c 40 with
  | (c1, .error e) => (c1, .error e)
  | (c1, .ok y) =>
    let c2 := { c1 with ake := c1.ake.map fun a =>
      { a with secretExponent := some y, ourPublicValue := some (modExp g1 y.natAbs) } }
    (c2, .ok (refSerializeDHKey c2))

/-- Modelled from the spec: `c.wrapMessageHeader(msgType, body)`, which is not
part of the embedded files: the `wrap` of the message framer, "version + type
+ instance tags + body"; version 2 has no instance tags, and the call fails
when no version has been negotiated. -/
def refWrapMessageHeader (c : Conversation) (msgType : Nat) (body : Bytes) :
    Except OtrError Bytes :=
  match c.version with
  | none => .error .errInvalidVersion
  | some .otrV2 => .ok ([0, 2, msgType] ++ body)
  | some .otrV3 =>
    .ok ([0, 3, msgType] ++ wordBytes c.ourInstanceTag ++ wordBytes c.theirInstanceTag ++ body)

/-- Modelled from the spec: `c.processDHCommit(msg)`, which is not part of the
embedded files: "parse peer's commitment, store it"; a payload whose two
length-prefixed fields cannot be extracted is an invalid message. -/
def refProcessDHCommit (c : Conversation) (msg : Bytes) : Conversation × Option OtrError :=
  let r1 := extractData msg
  let r2 := extractData r1.1
  if !r1.2.2 || !r2.2.2 then (c, some .errInvalidOTRMessage)
  else ({ c with ake := c.ake.map fun a => { a with encryptedGx := r1.2.1, hashedGx := r2.2.1 } },
        none)

/-- Modelled from the spec: `c.serializeDHCommit(public)`, which is not part of
the embedded files: the body of a DH-Commit message, the stored encrypted
public value and the hash of the MPI of `public`. -/
def refSerializeDHCommit (c : Conversation) (pub : BigInt) : Bytes :=
  match c.ake with
  | none => appendData (appendData [] []) (sha256Sum256 (appendMPI [] pub))
  | some a => appendData (appendData [] a.encryptedGx) (sha256Sum256 (appendMPI [] pub))

/-- Modelled from the spec: `c.processDHKey(msg)`, which is not part of the
embedded files: "validate, extract peer public value"; the value must lie
between `g1` and `p - 2`, the first one received is kept, and `isSame` tells
whether a later one is identical to it. -/
def refProcessDHKey (c : Conversation) (msg : Bytes) : Conversation × Bool × Option OtrError :=
  let r := extractMPI msg
  if !r.2.2 || r.2.1 < g1 || (p : Int) - 2 < r.2.1 then (c, false, some .errInvalidOTRMessage)
  else
    match c.ake with
    | none => (c, false, some .errInvalidOTRMessage)
    | some a =>
      match a.theirPublicValue with
      | some v => (c, decide (v = r.2.1), none)
      | none => ({ c with ake := some { a with theirPublicValue := some r.2.1 } }, false, none)

/-- Modelled from the spec: `c.revealSigMessage()`, which is not part of the
embedded files. Signing and encryption are outside the model: the body has
the layout of a Reveal-Signature message (revealed key, encrypted signature,
MAC) with zero content. -/
def refRevealSigMessage (c : Conversation) : Conversation × Except OtrError Bytes :=
  (c, .ok (appendData (appendData [] (List.replicate 16 0)) [] ++ List.replicate 20 0))

/-- Modelled from the spec: `c.sigMessage()`, which is not part of the embedded
files. Signing and encryption are outside the model: the body has the layout
of a Signature message (encrypted signature, MAC) with zero content. -/
def refSigMessage (c : Conversation) : Conversation × Except OtrError Bytes :=
  (c, .ok (appendData [] [] ++ List.replicate 20 0))

/-- Modelled from the spec: `c.processRevealSig(msg)`, which is not part of the
embedded files. Signature and MAC verification are outside the model: a
payload is taken as valid exactly when its two length-prefixed fields can be
extracted. -/
def refProcessRevealSig (c : Conversation) (msg : Bytes) : Conversation × Option OtrError :=
  let r1 := extractData msg
  let r2 := extractData r1.1
  if !r1.2.2 || !r2.2.2 then (c, some .errInvalidOTRMessage) else (c, none)

/-- Modelled from the spec: `c.processSig(msg)`, which is not part of the
embedded files. Signature and MAC verification are outside the model: a
payload is taken as valid exactly when its length-prefixed field can be
extracted. -/
def refProcessSig (c : Conversation) (msg : Bytes) : Conversation × Option OtrError :=
  if !(extractData msg).2.2 then (c, some .errInvalidOTRMessage) else (c, none)

/-- Modelled from the spec: the collaborators of the state machine, none of
which is part of the embedded files, each following the words of the spec as
described at its definition. Nothing is pending for retransmission. -/
def refCollab : Collab :=
  { randMPI := refRandMPI
    keysGenerateNewDHKeyPair := refKeysGenerateNewDHKeyPair
    wipeAndKeepRevealKeys := refWipeAndKeepRevealKeys
    setTheirCurrentDHPubKey := fun k pub => { k with theirCurrentDHPubKey := pub }
    setOurCurrentDHKeys := fun k priv pub => { k with ourCurrentDHKeys := { pub := pub, priv := priv } }
    akeWipe := refAkeWipe
    akeWipeGX := refAkeWipeGX
    dhKeyMessage := refDhKeyMessage
    wrapMessageHeader := refWrapMessageHeader
    processDHCommit := refProcessDHCommit
    serializeDHKey := refSerializeDHKey
    serializeDHCommit := refSerializeDHCommit
    extractData := extractData
    appendMPI := appendMPI
    sha256Sum256 := sha256Sum256
    processDHKey := refProcessDHKey
    revealSigMessage := refRevealSigMessage
    processRevealSig := refProcessRevealSig
    sigMessage := refSigMessage
    processSig := refProcessSig
    maybeRetransmit := fun c => (c, none, none) }

/-! ## Fixtures -/

/-- The secret exponent `fixtureY` of the test file. -/
def fixtureY : Nat :=
  0xabcdabcdabcdabcdabcdabcdabcdabcdabcdabcdabcdabcdabcdabcdabcdabcdabcdabcdabcdabcd

/-- The public value `fixtureGy` of the test file. -/
def fixtureGy : Nat :=
  0x2cdacabb00e63d8949aa85f7e6a095b1ee81a60779e58f8938ff1a7ed1e651d954bd739162e699cc73b820728af53aae60a46d529620792ddf839c5d03d2d4e92137a535b27500e3b3d34d59d0cd460d1f386b5eb46a7404b15c1ef84840697d2d3d2405dcdda351014d24a8717f7b9c51f6c84de365fea634737ae18ba22253a8e15249d9beb2dded640c6c0d74e4f7e19161cf828ce3ffa9d425fb68c0fddcaa7cbe81a7a5c2c595cce69a255059d9e5c04b49fb15901c087e225da850ff27

/-- The random source `fixtureRand()` of the test file: the bytes `ab cd`
repeated, here enough of them for one secret exponent. -/
def fixtureRand : List Nat := (List.replicate 20 [0xab, 0xcd]).flatten

/-- A key-management context holding an established session. -/
def fixtureKeys : KeyManagementContext :=
  { ourKeyID := 1, theirKeyID := 1,
    ourCurrentDHKeys := { pub := some 32, priv := some 5 },
    ourPreviousDHKeys := { pub := none, priv := none },
    theirCurrentDHPubKey := some 128, theirPreviousDHPubKey := none,
    ourCounter := 7, revealKeys := [[1, 2, 3]] }

/-- An AKE context in state `s` holding a key pair of ours. -/
def fixtureAke (s : AuthState) : Ake :=
  { state := s, secretExponent := some 5, ourPublicValue := some 32,
    theirPublicValue := none, encryptedGx := [], hashedGx := [] }

/-- A version 3 conversation in state `s` with the random source of the test
file and the key-management context `fixtureKeys`. -/
def fixtureConversation (s : AuthState) : Conversation :=
  { version := some .otrV3, Policies := 0, msgState := .plainText,
    ourInstanceTag := 0x101, theirInstanceTag := 0x202,
    ourKey := some { PublicKey := 11 }, theirKey := some 22,
    keys := fixtureKeys, ake := some (fixtureAke s),
    sentRevealSig := false, rand := fixtureRand, events := [] }

/-- The payload of a DH-Commit message: the encrypted public value `enc` and
the hash of the MPI of the public value `pub`. -/
def dhCommitPayload (enc : Bytes) (pub : Nat) : Bytes :=
  appendData (appendData [] enc) (sha256Sum256 (appendMPI [] (some (pub : Int))))

/-- A well-formed DH-Commit payload, committing to the public value
`fixtureGy`. -/
def fixtureDHCommitMsg : Bytes := dhCommitPayload [0xde, 0xad, 0xbe, 0xef] fixtureGy

/-- The reply of a handler that has returned; the default stands for a run
that did not return. -/
def replyOf (o : Option Reply) : Reply :=
  o.getD ⟨fixtureConversation .authStateNone, .authStateNone, none, none⟩

/-- The DH-Key message the reference collaborators build from the random
source of the test file: the version 3 header with type DH-Key and the
instance tags of `fixtureConversation`, and the MPI of `fixtureGy`. -/
def fixtureDHKeyMsg : Bytes :=
  [0, 3, 0x0a] ++ wordBytes 0x101 ++ wordBytes 0x202 ++ appendMPI [] (some (fixtureGy : Int))

/-- A second well-formed DH-Commit payload, committing to another value. -/
def fixtureDHCommitMsg2 : Bytes := dhCommitPayload [0xca, 0xfe] 32768

/-- Handling DH-Commit payloads one after the other, each in the state the
previous call returned and on the conversation it left; the replies in
order. -/
def feedDHCommits (E : Collab) : AuthState → Conversation → List Bytes → Option (List Reply)
  | _, _, [] => some []
  | s, c, msg :: rest =>
    match receiveDHCommitMessage E s c msg with
    | none => none
    | some r => (feedDHCommits E r.state r.conv rest).map (fun rs => r :: rs)

/-- Two conversations from which the same DH-Key message is built: the same
DH-Key body, the same framing of a DH-Key body, and an AKE context in both or
in neither. -/
def SameDHKey (E : Collab) (c c1 : Conversation) : Prop :=
  E.serializeDHKey c = E.serializeDHKey c1 ∧
  (∀ body, E.wrapMessageHeader c msgTypeDHKey body = E.wrapMessageHeader c1 msgTypeDHKey body) ∧
  c.ake.isSome = c1.ake.isSome

/-- Modelled from the spec: what the spec says of the collaborators that take
part in the retransmission of the DH-Key message, none of which is part of the
embedded files. `dhKeyMessage` returns the serialisation of the key pair it
has stored ("our ephemeral DH keypair for this attempt"); storing a peer's
commitment and the wipes of `authStateAwaitingRevealSig` leave that key pair
and the framing alone ("our own commitment is still valid and reusable"). -/
def DHKeyContract (E : Collab) : Prop :=
  (∀ c c2 body, E.dhKeyMessage c = (c2, .ok body) →
      E.serializeDHKey c2 = body ∧ c2.ake.isSome = c.ake.isSome) ∧
  (∀ c msg, (E.processDHCommit c msg).2 = none → SameDHKey E c (E.processDHCommit c msg).1) ∧
  (∀ c a, c.ake = some a →
      SameDHKey E c { c with keys := E.wipeAndKeepRevealKeys c.keys, ake := some (E.akeWipeGX a) })

/-- A conversation in state AwaitingDHKey: we have committed to the public
value `fixtureGy` (secret `fixtureY`), and the public value `128` of the peer
is still on file from an earlier exchange. -/
def tieBreakConversation : Conversation :=
  { fixtureConversation .authStateAwaitingDHKey with
    ake := some { state := .authStateAwaitingDHKey, secretExponent := some (fixtureY : Int),
                  ourPublicValue := some (fixtureGy : Int), theirPublicValue := some 128,
                  encryptedGx := [0xde, 0xad, 0xbe, 0xef],
                  hashedGx := sha256Sum256 (appendMPI [] (some (fixtureGy : Int))) } }

/-- The DH-Commit message we sent from `tieBreakConversation`: the framed
serialisation of the commitment to our public value. -/
def tieBreakOurDHCommit : Except OtrError Bytes :=
  refWrapMessageHeader tieBreakConversation msgTypeDHCommit
    (refSerializeDHCommit tieBreakConversation (some (fixtureGy : Int)))

/-- A DH-Commit payload of the peer whose hash `c46f10…` lies between the hash
`ad8cb5…` of the MPI of `128` and the hash `cdc8cc…` of the MPI of
`fixtureGy`. -/
def tieBreakCommitBetween : Bytes := dhCommitPayload [0xca, 0xfe] 32768

/-- A DH-Commit payload of the peer whose hash `85b41b…` is lower than both
the hash of the MPI of `128` and the hash of the MPI of `fixtureGy`. -/
def tieBreakCommitLow : Bytes := dhCommitPayload [0xca, 0xfe] 1024

/-- A DH-Commit payload cut short: the first field announces nine bytes and
one follows. -/
def truncatedDHCommitMsg : Bytes := [0, 0, 0, 9, 1]

/-- A Reveal-Signature payload with its fields in place: revealed key,
encrypted signature, MAC. -/
def fixtureRevealSigMsg : Bytes :=
  appendData (appendData [] (List.replicate 16 7)) [1, 2, 3] ++ List.replicate 20 9

/-- A conversation in state AwaitingRevealSig whose random source has twenty
bytes left, fewer than the forty `generateNewDHKeyPair` asks for. -/
def lowEntropyConversation : Conversation :=
  { fixtureConversation .authStateAwaitingRevealSig with rand := List.replicate 20 0xab }

/-- The Signature message the reference collaborators frame for
`lowEntropyConversation`. -/
def fixtureSigMsg : Bytes :=
  [0, 3, 0x12] ++ wordBytes 0x101 ++ wordBytes 0x202 ++ (appendData [] [] ++ List.replicate 20 0)

/-- Handling the same DH-Key payload `n` times in a row, each time in the
state the previous call returned and on the conversation it left; the state
and the conversation after the last call. -/
def feedDHKeys (E : Collab) (msg : Bytes) :
    Nat → AuthState → Conversation → Option (AuthState × Conversation)
  | 0, s, c => some (s, c)
  | n + 1, s, c =>
    match receiveDHKeyMessage E s c msg with
    | none => none
    | some r => feedDHKeys E msg n r.state r.conv

/-- Modelled from the spec: what the spec says of `processDHKey`, which is not
part of the embedded files. Validating a DH-Key message does not write to the
key-management context (keys are installed by the handler, in a later step),
and a duplicate, "a public value identical to the one already on file",
leaves the conversation as it is. -/
def ProcessDHKeyContract (E : Collab) : Prop :=
  (∀ c msg, (E.processDHKey c msg).1.keys = c.keys) ∧
  (∀ c msg, (E.processDHKey c msg).2 = (true, none) → (E.processDHKey c msg).1 = c)

/-- A Reveal-Signature message kept for retransmission. -/
def fixtureRevealSigStored : Bytes :=
  [0, 3, 0x11] ++ wordBytes 0x101 ++ wordBytes 0x202 ++
    (appendData (appendData [] (List.replicate 16 0)) [] ++ List.replicate 20 0)

/-- A conversation in state AwaitingSig that has the public value `fixtureGy`
of the peer on file. -/
def awaitingSigConversation : Conversation :=
  { fixtureConversation (.authStateAwaitingSig (some fixtureRevealSigStored)) with
    ake := some { fixtureAke (.authStateAwaitingSig (some fixtureRevealSigStored)) with
                  theirPublicValue := some (fixtureGy : Int) } }

/-- A DH-Key payload carrying the public value `fixtureGy`. -/
def fixtureDHKeyPayload : Bytes := appendMPI [] (some (fixtureGy : Int))

/-- Modelled from the spec: the two setters of the key-management context,
which are not part of the embedded files: `set_their_current_public_value(v)`
and `set_our_current_keypair(secret, public)` store what they are given and
leave the send counter alone. -/
def SettersContract (E : Collab) : Prop :=
  (∀ k pub, (E.setTheirCurrentDHPubKey k pub).theirCurrentDHPubKey = pub ∧
      (E.setTheirCurrentDHPubKey k pub).ourCounter = k.ourCounter) ∧
  (∀ k priv pub,
      (E.setOurCurrentDHKeys k priv pub).ourCurrentDHKeys = { pub := pub, priv := priv } ∧
      (E.setOurCurrentDHKeys k priv pub).theirCurrentDHPubKey = k.theirCurrentDHPubKey ∧
      (E.setOurCurrentDHKeys k priv pub).ourCounter = k.ourCounter)

/-- Modelled from the spec: what the spec says of the collaborators of the
DH-Key handler of AwaitingDHKey, none of which is part of the embedded files:
the setters store what they are given, and validating the DH-Key message and
building the Reveal-Signature message do not write to the key-management
context ("no partial key installation occurs"). -/
def KeyInstallContract (E : Collab) : Prop :=
  SettersContract E ∧
  (∀ c msg, (E.processDHKey c msg).1.keys = c.keys) ∧
  (∀ c, (E.revealSigMessage c).1.keys = c.keys)

/-- Modelled from the spec: `randMPI`, which is not part of the embedded
files, reads the random source and writes nothing else of the conversation. -/
def RandomSourceContract (E : Collab) : Prop :=
  ∀ c n, (E.randMPI c n).1 = { c with rand := (E.randMPI c n).1.rand }

/-- A conversation in state `s` whose send counter has the greatest value of
a `uint64`. -/
def counterAtMaxConversation (s : AuthState) : Conversation :=
  { fixtureConversation s with keys := { fixtureKeys with ourCounter := 18446744073709551615 } }

/-- The pair a call of `akeHasFinished` returns; the default stands for a run
that did not return. -/
def finishedOf (o : Option (Conversation × Option OtrError)) : Conversation × Option OtrError :=
  o.getD (fixtureConversation .authStateNone, none)

/-- Modelled from the spec: what the spec says of the collaborators of the two
completion handlers, none of which is part of the embedded files: the setters
store what they are given, `randMPI` writes to the random source only,
validating a Reveal-Signature or Signature message and building the Signature
message do not write to the key-management context, and generating the next
DH key pair leaves the send counter and the peer's current public key
alone. -/
def CompletionContract (E : Collab) : Prop :=
  SettersContract E ∧ RandomSourceContract E ∧
  (∀ c msg, (E.processRevealSig c msg).1.keys = c.keys) ∧
  (∀ c, (E.sigMessage c).1.keys = c.keys) ∧
  (∀ c msg, (E.processSig c msg).1.keys = c.keys) ∧
  (∀ k x, (E.keysGenerateNewDHKeyPair k x).ourCounter = k.ourCounter ∧
      (E.keysGenerateNewDHKeyPair k x).theirCurrentDHPubKey = k.theirCurrentDHPubKey)

/-- A Signature payload with its fields in place: encrypted signature, MAC. -/
def fixtureSigPayload : Bytes := appendData [] [4, 5, 6] ++ List.replicate 20 9

/-- A message waiting for retransmission. -/
def fixturePendingMsg : Bytes := [0, 3, 0x03, 0xaa, 0xbb]

/-- The reference collaborators with `fixturePendingMsg` pending for
retransmission. -/
def retransmittingCollab : Collab :=
  { refCollab with maybeRetransmit := fun c => (c, some fixturePendingMsg, none) }

/-- The result of a call of `processAKE` that has returned; the default stands
for a run that did not return. -/
def akeResultOf (o : Option AkeResult) : AkeResult :=
  o.getD ⟨fixtureConversation .authStateNone, [], none⟩

/-! ## Query messages (query.go) -/

/-- The two policy flags the embedded file tests. -/
inductive Policy where
  | allowV2
  | allowV3
  deriving DecidableEq, Repr

/-- The constant `queryMarker`, declared outside the embedded files: the bytes
`?OTR` every query message starts with (`queryMessage` writes them out, and
`parseOTRQueryMessage` expects `?` or `v` right after them). -/
def queryMarker : Bytes := [0x3f, 0x4f, 0x54, 0x52]

/-- Go's `bytes.HasPrefix`. -/
def bytesStartWith (msg marker : Bytes) : Bool := marker.isPrefixOf msg

/-- The call `strconv.Atoi(string(c))` on one byte `c`: the value of a decimal
digit, and an error (`none`) for every other byte. -/
def atoiByte (c : Nat) : Option Nat :=
  if 0x30 ≤ c ∧ c ≤ 0x39 then some (c - 0x30) else none

/-- The function `parseOTRQueryMessage`; the versions are small non-negative
Go `int`s. -/
def parseOTRQueryMessage (msg : Bytes) : List Nat :=
  if bytesStartWith msg queryMarker && decide (msg.length > queryMarker.length) then
    let versions := msg.drop queryMarker.length
    let ret : List Nat := if versions.head? = some 0x3f then [1] else []
    let versions := if versions.head? = some 0x3f then versions.drop 1 else versions
    if decide (versions.length > 0) && decide (versions.head? = some 0x76) then
      ret ++ versions.filterMap atoiByte
    else ret
  else []

/-- The loop of `acceptOTRRequest` over the parsed versions; `has p flag` is
the method `p.has(flag)` of the policy set, which is declared outside the
embedded files and taken as a parameter. -/
def acceptOTRRequestLoop (has : Nat → Policy → Bool) (p : Nat) :
    List Nat → Option OtrVersion × Bool
  | [] => (none, false)
  | v :: rest =>
    if v = 3 ∧ has p .allowV3 = true then (some .otrV3, true)
    else if v = 2 ∧ has p .allowV2 = true then (some .otrV2, true)
    else acceptOTRRequestLoop has p rest

/-- The function `acceptOTRRequest`, returning `(otrVersion, ok)`; a nil
version is `none`. -/
def acceptOTRRequest (has : Nat → Policy → Bool) (p : Nat) (msg : Bytes) :
    Option OtrVersion × Bool :=
  acceptOTRRequestLoop has p (parseOTRQueryMessage msg)

/-- The functions `sendDHCommit` calls and the embedded files do not define:
the value `generateInstanceTag()` returns on this call, and the method
`c.dhCommitMessage()`, returning `(toSend, err)`. -/
structure QueryCollab where
  generateInstanceTag : Nat
  dhCommitMessage : Conversation → Conversation × Option Bytes × Option OtrError

/-- The method `Conversation.sendDHCommit`, returning the conversation after
the call and `(toSend, err)`; `none` when `c.ake` is nil. -/
def sendDHCommit (Q : QueryCollab) (c : Conversation) :
    Option (Conversation × Option Bytes × Option OtrError) :=
  let c1 := { c with ourInstanceTag := Q.generateInstanceTag }
  match Q.dhCommitMessage c1 with
  | (c2, toSend, some e) => some (c2, toSend, some e)
  | (c2, toSend, none) =>
    match c2.ake with
    | none => none
    | some a =>
      some ({ c2 with ake := some { a with state := .authStateAwaitingDHKey },
                      keys := { c2.keys with ourCurrentDHKeys := { pub := none, priv := none } } },
            toSend, none)

/-- The method `Conversation.receiveQueryMessage`. -/
def receiveQueryMessage (has : Nat → Policy → Bool) (Q : QueryCollab) (c : Conversation)
    (msg : Bytes) : Option (Conversation × Option Bytes × Option OtrError) :=
  match acceptOTRRequest has c.Policies msg with
  | (_, false) => some (c, none, some .errInvalidVersion)
  | (v, true) => sendDHCommit Q { c with version := v }

/-- The method `Conversation.queryMessage`: `?OTRv`, then `2` and `3` as the
policies allow, then `?`. -/
def queryMessage (has : Nat → Policy → Bool) (c : Conversation) : Bytes :=
  let queryMessage : Bytes := [0x3f, 0x4f, 0x54, 0x52, 0x76]
  let queryMessage := if has c.Policies .allowV2 then queryMessage ++ [0x32] else queryMessage
  let queryMessage := if has c.Policies .allowV3 then queryMessage ++ [0x33] else queryMessage
  queryMessage ++ [0x3f]

/-- A policy set as a bit set, for running the functions above: flag
`allowV2` is bit 0 and `allowV3` is bit 1. -/
def bitPolicies (p : Nat) (f : Policy) : Bool :=
  match f with
  | .allowV2 => p.testBit 0
  | .allowV3 => p.testBit 1

/-- Modelled from the spec: `c.dhCommitMessage()`, which is not part of the
embedded files: `generate_keypair(randomness)` of the DH primitive provider,
stored in the AKE context, and the DH-Commit body for it; it fails only when
the random source fails (`RandomnessFailure`). -/
def refDhCommitMessage (c : Conversation) : Conversation × Option Bytes × Option OtrError :=
  match refRandMPI c 40 with
  | (c1, .error e) => (c1, none, some e)
  | (c1, .ok x) =>
    let c2 := { c1 with ake := c1.ake.map fun a =>
      { a with secretExponent := some x, ourPublicValue := some (modExp g1 x.natAbs) } }
    (c2, some (refSerializeDHCommit c2 (some (modExp g1 x.natAbs))), none)

/-- Reference collaborators of `sendDHCommit`: the instance tag `0x100` and
`refDhCommitMessage`. -/
def refQueryCollab : QueryCollab :=
  { generateInstanceTag := 0x100, dhCommitMessage := refDhCommitMessage }

/-- Modelled from the spec: what `receiveQueryMessage` relies on from
`c.dhCommitMessage()`, which is not part of the embedded files. Building the
DH-Commit is a step of the handshake and fails only with one of its error
kinds ("Error kinds: `MalformedMessage` …, `UnknownMessageType`,
`InvalidCommitment` …, `InvalidSignature`, `RandomnessFailure`"): never with
`errInvalidVersion`, the error of a query no version of which is accepted. -/
def DHCommitErrorContract (Q : QueryCollab) : Prop :=
  ∀ c : Conversation, (Q.dhCommitMessage c).2.2 ≠ some .errInvalidVersion

/-- The query message `?OTRv23?`. -/
def fixtureQueryMsg : Bytes := [0x3f, 0x4f, 0x54, 0x52, 0x76, 0x32, 0x33, 0x3f]

/-- The conversation of the fixtures in state Idle under a policy set that
allows versions 2 and 3. -/
def queryingConversation : Conversation :=
  { fixtureConversation .authStateNone with Policies := 3 }

/-! ## Zero-knowledge proofs and TLVs (smp.go) -/

/-- The constants `p`, `q`, `g1` and the function `hashMPIsBN(nil, ix, mpis…)`
that `smp.go` uses and the embedded files do not define, taken as parameters.
The big integers of this part of `smp.go` are never negative (secrets and
exponents are random MPIs, hash values are read from bytes) and are natural
numbers here. -/
structure SmpParams where
  p : Nat
  q : Nat
  g1 : Nat
  hashMPIsBN : Nat → List Nat → Nat

/-- Modelled from the spec: `modExp(g, x)`, which is not part of the embedded
files: the group exponentiation `g ^ x mod p`, computed by square and
multiply. -/
def smpModExp (S : SmpParams) (g x : Nat) : Nat := modExpFuel x g x S.p

/-- Modelled from the spec: `mul(l, r)`, which is not part of the embedded
files: the product of two big integers. -/
def mul (l r : Nat) : Nat := l * r

/-- Modelled from the spec: `subMod(l, r, m)`, which is not part of the
embedded files: `(l - r) mod m` with the non-negative remainder of
`big.Int.Mod`. -/
def subMod (l r m : Nat) : Nat := (((l : Int) - (r : Int)) % (m : Int)).toNat

/-- Modelled from the spec: `mulMod(l, r, m)`, which is not part of the
embedded files: `(l * r) mod m`. -/
def mulMod (l r m : Nat) : Nat := l * r % m

/-- Modelled from the spec: `eq(l, r)`, which is not part of the embedded
files: equality of two big integers. -/
def eq (l r : Nat) : Bool := decide (l = r)

/-- The function `generateDZKP`. -/
def generateDZKP (S : SmpParams) (r a c : Nat) : Nat :=
  subMod r (mul a c) S.q

/-- The function `generateZKP`, returning `(c, d)`. -/
def generateZKP (S : SmpParams) (r a : Nat) (ix : Nat) : Nat × Nat :=
  let c := S.hashMPIsBN ix [smpModExp S S.g1 r]
  let d := generateDZKP S r a c
  (c, d)

/-- The function `verifyZKP`. -/
def verifyZKP (S : SmpParams) (d gen c : Nat) (ix : Nat) : Bool :=
  let r := smpModExp S S.g1 d
  let s := smpModExp S gen c
  let t := S.hashMPIsBN ix [mulMod r s S.p]
  eq c t

/-- The type `tlv`, declared outside the embedded files, with the three
fields `genSMPTLV` fills in; `tlvType` and `tlvLength` are `uint16`. -/
structure Tlv where
  tlvType : Nat
  tlvLength : Nat
  tlvValue : Bytes
  deriving DecidableEq, Repr

/-- Modelled from the spec: `appendWord`, which is not part of the embedded
files: appends the four big-endian bytes of a 32-bit word. -/
def appendWord (l : Bytes) (r : Nat) : Bytes := l ++ wordBytes r

/-- Modelled from the spec: `appendMPIs`, which is not part of the embedded
files: appends the MPI encoding of each big integer in turn. -/
def appendMPIs (l : Bytes) (mpis : List BigInt) : Bytes := mpis.foldl appendMPI l

/-- The function `genSMPTLV`; `uint32(len(mpis))` and `uint16(len(data))`
reduce modulo `2^32` and `2^16`. -/
def genSMPTLV (tp : Nat) (mpis : List BigInt) : Tlv :=
  let data : Bytes := []
  let data := appendWord data (mpis.length % 2 ^ 32)
  let data := appendMPIs data mpis
  let length := data.length % 2 ^ 16
  { tlvType := tp, tlvLength := length, tlvValue := data }

/-- The group of the protocol as parameters of `smp.go`: the modulus `p`, the
order `q = (p - 1) / 2` of the subgroup `g1 = 2` generates, and SHA-256 of the
index byte followed by the MPIs as `hashMPIsBN`. -/
def otrSmpParams : SmpParams :=
  { p := p, q := (p - 1) / 2, g1 := g1,
    hashMPIsBN := fun ix mpis =>
      bytesToNat (sha256Sum256 (ix :: (mpis.map fun x => appendMPI [] (some (x : Int))).flatten)) }

/-! ## Properties of the handlers -/

/-- The reference SHA-256 on the test vector `"abc"` of FIPS 180-4. -/
theorem sha256Sum256_abc :
    sha256Sum256 [0x61, 0x62, 0x63] =
      [0xba, 0x78, 0x16, 0xbf, 0x8f, 0x01, 0xcf, 0xea, 0x41, 0x41, 0x40, 0xde, 0x5d, 0xae,
       0x22, 0x23, 0xb0, 0x03, 0x61, 0xa3, 0x96, 0x17, 0x7a, 0x9c, 0xb4, 0x10, 0xff, 0x61,
       0xf2, 0x00, 0x15, 0xad] := by decide!

/-- The reference group reproduces the fixtures of the test file:
`fixtureGy` is `g1 ^ fixtureY mod p`. -/
theorem modExp_fixtureY : modExp g1 fixtureY = fixtureGy := by decide!

/-- The reference framing is a round trip: a field appended by `appendData` is
extracted by `extractData`. -/
theorem extractData_fixtureDHCommitMsg :
    extractData fixtureDHCommitMsg =
      (appendData [] (sha256Sum256 (appendMPI [] (some (fixtureGy : Int)))),
       [0xde, 0xad, 0xbe, 0xef], true) := by decide!

/-- The handler of `authStateNone` on a DH-Commit, when it returns without an
error: the state is `authStateAwaitingRevealSig` and the message is the
wrapped DH-Key body that `dhKeyMessage` produced on the wiped conversation. -/
theorem authStateNone_receiveDHCommit_noError (E : Collab) (c : Conversation) (msg : Bytes)
    (r : Reply) (h : authStateNone.receiveDHCommitMessage E c msg = some r)
    (herr : r.err = none) :
    r.state = .authStateAwaitingRevealSig ∧
    ∃ a c2 body out, c.ake = some a ∧
      E.dhKeyMessage { c with keys := E.wipeAndKeepRevealKeys c.keys,
                              ake := some (E.akeWipe a) } = (c2, .ok body) ∧
      E.wrapMessageHeader c2 msgTypeDHKey body = .ok out ∧ r.msg = some out ∧
      E.processDHCommit c2 msg = (r.conv, none) := by
  unfold authStateNone.receiveDHCommitMessage at h
  cases hake : c.ake with
  | none => simp [hake] at h
  | some a =>
    simp only [hake] at h
    split at h
    · simp only [Option.some.injEq] at h; subst h; simp at herr
    · rename_i c2 body hdh
      split at h
      · simp only [Option.some.injEq] at h; subst h; simp at herr
      · rename_i out hwrap
        split at h
        · simp only [Option.some.injEq] at h; subst h; simp at herr
        · rename_i c3 hc
          simp only [Option.some.injEq] at h; subst h
          exact ⟨rfl, a, c2, body, out, rfl, hdh, hwrap, rfl, hc⟩

/-- C1. Each of the no-op cells of the dispatch table (Idle on DH-Key,
Reveal-Sig and Sig; AwaitingDHKey on Reveal-Sig and Sig; AwaitingRevealSig on
DH-Key and Sig; AwaitingSig on Reveal-Sig) returns, for every conversation and
payload and whatever the collaborators are, the receiver state itself, a nil
message and a nil error; the conversation of the reply is the conversation
the handler was given, so the key-management context, the AKE context and
every other field are unchanged. -/
theorem noop_cells_leave_conversation_unchanged (E : Collab) (c : Conversation) (msg : Bytes)
    (revealSigMsg : Option Bytes) :
    (receiveDHKeyMessage E .authStateNone c msg = some ⟨c, .authStateNone, none, none⟩ ∧
     receiveRevealSigMessage E .authStateNone c msg = some ⟨c, .authStateNone, none, none⟩ ∧
     receiveSigMessage E .authStateNone c msg = some ⟨c, .authStateNone, none, none⟩) ∧
    (receiveRevealSigMessage E .authStateAwaitingDHKey c msg
        = some ⟨c, .authStateAwaitingDHKey, none, none⟩ ∧
     receiveSigMessage E .authStateAwaitingDHKey c msg
        = some ⟨c, .authStateAwaitingDHKey, none, none⟩) ∧
    (receiveDHKeyMessage E .authStateAwaitingRevealSig c msg
        = some ⟨c, .authStateAwaitingRevealSig, none, none⟩ ∧
     receiveSigMessage E .authStateAwaitingRevealSig c msg
        = some ⟨c, .authStateAwaitingRevealSig, none, none⟩) ∧
    receiveRevealSigMessage E (.authStateAwaitingSig revealSigMsg) c msg
        = some ⟨c, .authStateAwaitingSig revealSigMsg, none, none⟩ :=
  ⟨⟨rfl, rfl, rfl⟩, ⟨rfl, rfl⟩, ⟨rfl, rfl⟩, rfl⟩

/-- C2. In state Idle (`authStateNone`) or AwaitingSig, whenever
`receiveDHCommitMessage` returns without an error, the state it returns is
`authStateAwaitingRevealSig` and the outgoing message is a header-wrapped
message of type DH-Key: the result of `wrapMessageHeader(msgTypeDHKey, body)`
for the body `dhKeyMessage` produced. -/
theorem receiveDHCommit_idle_or_awaitingSig (E : Collab) (s : AuthState) (c : Conversation)
    (msg : Bytes) (r : Reply)
    (hs : s = .authStateNone ∨ ∃ revealSigMsg, s = .authStateAwaitingSig revealSigMsg)
    (h : receiveDHCommitMessage E s c msg = some r) (herr : r.err = none) :
    r.state = .authStateAwaitingRevealSig ∧
    ∃ c1 c2 body out, E.dhKeyMessage c1 = (c2, .ok body) ∧
      E.wrapMessageHeader c2 msgTypeDHKey body = .ok out ∧ r.msg = some out := by
  have key : authStateNone.receiveDHCommitMessage E c msg = some r := by
    rcases hs with hs | ⟨m, hs⟩ <;> subst hs <;> exact h
  obtain ⟨hst, a, c2, body, out, _, hdh, hwrap, hmsg, _⟩ :=
    authStateNone_receiveDHCommit_noError E c msg r key herr
  exact ⟨hst, _, c2, body, out, hdh, hwrap, hmsg⟩

/-- Witness for C2: the reference collaborators, a conversation in AwaitingSig
and the well-formed DH-Commit of the fixtures; the reply carries no error, the
state `authStateAwaitingRevealSig` and a message of type DH-Key. -/
theorem receiveDHCommit_idle_or_awaitingSig_witness :
    (replyOf (receiveDHCommitMessage refCollab (.authStateAwaitingSig none)
        (fixtureConversation (.authStateAwaitingSig none)) fixtureDHCommitMsg)).err = none ∧
    (replyOf (receiveDHCommitMessage refCollab (.authStateAwaitingSig none)
        (fixtureConversation (.authStateAwaitingSig none)) fixtureDHCommitMsg)).state = .authStateAwaitingRevealSig ∧
    ∃ c1 c2 body out, refCollab.dhKeyMessage c1 = (c2, .ok body) ∧
      refCollab.wrapMessageHeader c2 msgTypeDHKey body = .ok out ∧
      (replyOf (receiveDHCommitMessage refCollab (.authStateAwaitingSig none)
        (fixtureConversation (.authStateAwaitingSig none)) fixtureDHCommitMsg)).msg = some out :=
  ⟨by decide!,
   receiveDHCommit_idle_or_awaitingSig refCollab (.authStateAwaitingSig none)
     (fixtureConversation (.authStateAwaitingSig none)) fixtureDHCommitMsg _ (Or.inr ⟨none, rfl⟩) (by decide!) (by decide!)⟩

/-- C3 (counterexample). A conversation in AwaitingSig handling the
well-formed DH-Commit of the fixtures: the handler returns without an error
and the state it returns is `authStateAwaitingRevealSig`, not
`authStateAwaitingDHKey`. -/
theorem awaitingSig_receiveDHCommit_not_awaitingDHKey :
    ∃ r, receiveDHCommitMessage refCollab (.authStateAwaitingSig none)
        (fixtureConversation (.authStateAwaitingSig none)) fixtureDHCommitMsg = some r ∧
      r.err = none ∧ r.msg = some fixtureDHKeyMsg ∧
      r.state = .authStateAwaitingRevealSig ∧ r.state ≠ .authStateAwaitingDHKey :=
  ⟨replyOf (receiveDHCommitMessage refCollab (.authStateAwaitingSig none)
      (fixtureConversation (.authStateAwaitingSig none)) fixtureDHCommitMsg),
    by decide!, by decide!, by decide!, by decide!, by decide!⟩

/-- C3 (amended). For every conversation in AwaitingSig and every DH-Commit
payload that `processDHCommit` accepts, provided the DH-Key message can be
generated and framed, `receiveDHCommitMessage` returns without an error, sends
the freshly generated DH-Key message and returns the state
`authStateAwaitingRevealSig`. -/
theorem awaitingSig_receiveDHCommit_wellFormed (E : Collab) (revealSigMsg : Option Bytes)
    (c : Conversation) (msg : Bytes) (a : Ake) (body out : Bytes)
    (hake : c.ake = some a)
    (hdh : (E.dhKeyMessage { c with keys := E.wipeAndKeepRevealKeys c.keys,
                                    ake := some (E.akeWipe a) }).2 = .ok body)
    (hwrap : E.wrapMessageHeader
      (E.dhKeyMessage { c with keys := E.wipeAndKeepRevealKeys c.keys,
                               ake := some (E.akeWipe a) }).1 msgTypeDHKey body = .ok out)
    (hcommit : (E.processDHCommit
      (E.dhKeyMessage { c with keys := E.wipeAndKeepRevealKeys c.keys,
                               ake := some (E.akeWipe a) }).1 msg).2 = none) :
    receiveDHCommitMessage E (.authStateAwaitingSig revealSigMsg) c msg =
      some ⟨(E.processDHCommit
              (E.dhKeyMessage { c with keys := E.wipeAndKeepRevealKeys c.keys,
                                       ake := some (E.akeWipe a) }).1 msg).1,
            .authStateAwaitingRevealSig, some out, none⟩ := by
  simp only [receiveDHCommitMessage, authStateBase.receiveDHCommitMessage,
    authStateNone.receiveDHCommitMessage, hake]
  generalize E.dhKeyMessage _ = x at hdh hwrap hcommit ⊢
  obtain ⟨c2, res⟩ := x
  simp only at hdh hwrap hcommit
  subst hdh
  simp only [hwrap]
  generalize E.processDHCommit c2 msg = y at hcommit ⊢
  obtain ⟨c3, e⟩ := y
  simp only at hcommit
  subst hcommit
  rfl

/-- Witness for C3 (amended): the reference collaborators on the fixtures. -/
theorem awaitingSig_receiveDHCommit_wellFormed_witness :
    receiveDHCommitMessage refCollab (.authStateAwaitingSig none)
        (fixtureConversation (.authStateAwaitingSig none)) fixtureDHCommitMsg =
      some ⟨(refCollab.processDHCommit
              (refCollab.dhKeyMessage
                { fixtureConversation (.authStateAwaitingSig none) with
                  keys := refCollab.wipeAndKeepRevealKeys fixtureKeys,
                  ake := some (refCollab.akeWipe (fixtureAke (.authStateAwaitingSig none))) }).1
              fixtureDHCommitMsg).1,
            .authStateAwaitingRevealSig, some fixtureDHKeyMsg, none⟩ :=
  awaitingSig_receiveDHCommit_wellFormed refCollab none
    (fixtureConversation (.authStateAwaitingSig none)) fixtureDHCommitMsg
    (fixtureAke (.authStateAwaitingSig none)) (appendMPI [] (some (fixtureGy : Int)))
    fixtureDHKeyMsg rfl (by decide!) (by decide!) (by decide!)

/-- One retransmission: in state AwaitingRevealSig, on a conversation from
which the DH-Key message `m` is built, a DH-Commit that `processDHCommit`
accepts is answered by `m`, and `m` is still the message built from the
conversation the handler leaves. -/
theorem awaitingRevealSig_receiveDHCommit_resends (E : Collab) (hE : DHKeyContract E)
    (c : Conversation) (msg m : Bytes)
    (hinv : E.wrapMessageHeader c msgTypeDHKey (E.serializeDHKey c) = .ok m)
    (hake : c.ake.isSome = true)
    (hwf : ∀ c1, (E.processDHCommit c1 msg).2 = none) :
    ∃ r, authStateAwaitingRevealSig.receiveDHCommitMessage E c msg = some r ∧
      r.state = .authStateAwaitingRevealSig ∧ r.err = none ∧ r.msg = some m ∧
      E.wrapMessageHeader r.conv msgTypeDHKey (E.serializeDHKey r.conv) = .ok m ∧
      r.conv.ake.isSome = true := by
  obtain ⟨_, hcommit, hwipe⟩ := hE
  obtain ⟨a, ha⟩ := Option.isSome_iff_exists.mp hake
  obtain ⟨hs1, hw1, hk1⟩ := hwipe c a ha
  simp only [authStateAwaitingRevealSig.receiveDHCommitMessage, ha]
  generalize ({ c with keys := E.wipeAndKeepRevealKeys c.keys,
                       ake := some (E.akeWipeGX a) } : Conversation) = c1 at hs1 hw1 hk1 ⊢
  have hc := hwf c1
  obtain ⟨hs2, hw2, hk2⟩ := hcommit c1 msg hc
  generalize E.processDHCommit c1 msg = y at hc hs2 hw2 hk2 ⊢
  obtain ⟨c2, e⟩ := y
  simp only at hc hs2 hw2 hk2
  subst hc
  have hwrap : E.wrapMessageHeader c2 msgTypeDHKey (E.serializeDHKey c2) = .ok m := by
    rw [← hs2, ← hw2, ← hs1, ← hw1]; exact hinv
  simp only [hwrap]
  exact ⟨_, rfl, rfl, rfl, rfl, hwrap, by rw [← hk2, ← hk1]; exact hake⟩

/-- Any number of retransmissions: from state AwaitingRevealSig, every
DH-Commit of a list of accepted payloads is answered by the same message. -/
theorem feedDHCommits_resends (E : Collab) (hE : DHKeyContract E) (m : Bytes)
    (msgs : List Bytes) (hwf : ∀ msg ∈ msgs, ∀ c1, (E.processDHCommit c1 msg).2 = none) :
    ∀ c : Conversation,
      E.wrapMessageHeader c msgTypeDHKey (E.serializeDHKey c) = .ok m → c.ake.isSome = true →
      ∃ rs, feedDHCommits E .authStateAwaitingRevealSig c msgs = some rs ∧
        rs.length = msgs.length ∧
        ∀ r ∈ rs, r.state = .authStateAwaitingRevealSig ∧ r.err = none ∧ r.msg = some m := by
  induction msgs with
  | nil => intro c _ _; exact ⟨[], rfl, rfl, by simp⟩
  | cons msg rest ih =>
    intro c hinv hake
    obtain ⟨r, hr, hst, herr, hmsg, hinv1, hake1⟩ :=
      awaitingRevealSig_receiveDHCommit_resends E hE c msg m hinv hake
        (hwf msg (List.mem_cons_self _ _))
    obtain ⟨rs, hrs, hlen, hall⟩ :=
      ih (fun x hx => hwf x (List.mem_cons_of_mem _ hx)) r.conv hinv1 hake1
    refine ⟨r :: rs, ?_, by simp [hlen], ?_⟩
    · simp only [feedDHCommits, receiveDHCommitMessage, hr, hst, hrs, Option.map_some']
    · intro x hx
      rcases List.mem_cons.mp hx with hx | hx
      · subst hx; exact ⟨hst, herr, hmsg⟩
      · exact hall x hx

/-- The reference collaborators satisfy the contract of the retransmission
of DH-Key. -/
theorem refCollab_DHKeyContract : DHKeyContract refCollab := by
  refine ⟨?_, ?_, ?_⟩
  · intro c c2 body h
    have h1 : refDhKeyMessage c = (c2, .ok body) := h
    unfold refDhKeyMessage at h1
    rcases hr : refRandMPI c 40 with ⟨c1, e | y⟩
    · rw [hr] at h1; simp at h1
    · rw [hr] at h1
      simp only [Prod.mk.injEq, Except.ok.injEq] at h1
      obtain ⟨h2, h3⟩ := h1
      subst h2
      refine ⟨h3, ?_⟩
      have hake : c1.ake = c.ake := by
        unfold refRandMPI at hr
        split at hr <;> simp only [Prod.mk.injEq] at hr <;> obtain ⟨hr1, _⟩ := hr <;>
          subst hr1 <;> rfl
      simp [hake]
  · intro c msg h
    simp only [refCollab, refProcessDHCommit] at h ⊢
    split at h
    · simp at h
    · rename_i hcond
      simp only [hcond, SameDHKey, refSerializeDHKey, refWrapMessageHeader]
      cases c.ake <;> simp
  · intro c a ha
    simp only [refCollab, SameDHKey, refSerializeDHKey, refWrapMessageHeader, refAkeWipeGX, ha]
    simp

/-- Whether the reference `processDHCommit` accepts a payload depends on the
payload alone. -/
theorem refProcessDHCommit_accepts (msg : Bytes)
    (h : (extractData msg).2.2 = true ∧ (extractData (extractData msg).1).2.2 = true)
    (c : Conversation) : (refCollab.processDHCommit c msg).2 = none := by
  simp [refCollab, refProcessDHCommit, h.1, h.2]

/-- C4. Retransmission determinism. Let the collaborators keep our DH key
pair and the framing while a peer's commitment is stored or wiped
(`DHKeyContract`). If the Idle handler processes a DH-Commit without an error
and emits the DH-Key message `m`, it reaches `authStateAwaitingRevealSig`, and
handling from there any list of further DH-Commit payloads that
`processDHCommit` accepts returns one reply per payload, each with state
`authStateAwaitingRevealSig`, no error, and a message equal to `m`. -/
theorem dhKey_retransmission_determinism (E : Collab) (hE : DHKeyContract E)
    (c : Conversation) (msg0 : Bytes) (msgs : List Bytes) (r0 : Reply) (m : Bytes)
    (hwf : ∀ msg ∈ msgs, ∀ c1, (E.processDHCommit c1 msg).2 = none)
    (h0 : receiveDHCommitMessage E .authStateNone c msg0 = some r0)
    (herr : r0.err = none) (hm : r0.msg = some m) :
    r0.state = .authStateAwaitingRevealSig ∧
    ∃ rs, feedDHCommits E r0.state r0.conv msgs = some rs ∧ rs.length = msgs.length ∧
      ∀ r ∈ rs, r.state = .authStateAwaitingRevealSig ∧ r.err = none ∧ r.msg = some m := by
  obtain ⟨hst, a, c2, body, out, ha, hdh, hwrap, hmsg, hc⟩ :=
    authStateNone_receiveDHCommit_noError E c msg0 r0 h0 herr
  have hout : out = m := by rw [hmsg] at hm; exact Option.some.inj hm
  subst hout
  obtain ⟨hser, hk⟩ := hE.1 _ c2 body hdh
  have hc2 : (E.processDHCommit c2 msg0).2 = none := by rw [hc]
  obtain ⟨hs, hw, hk2⟩ := hE.2.1 c2 msg0 hc2
  rw [hc] at hs hw hk2
  refine ⟨hst, ?_⟩
  rw [hst]
  refine feedDHCommits_resends E hE out msgs hwf r0.conv ?_ ?_
  · rw [← hs, ← hw, hser]; exact hwrap
  · rw [← hk2, hk]; rfl

/-- Witness for C4: the reference collaborators, the Idle conversation of the
fixtures, and the same DH-Commit sent again twice, then a different one. -/
theorem dhKey_retransmission_determinism_witness :
    (replyOf (receiveDHCommitMessage refCollab .authStateNone
        (fixtureConversation .authStateNone) fixtureDHCommitMsg)).state
      = .authStateAwaitingRevealSig ∧
    ∃ rs, feedDHCommits refCollab
        (replyOf (receiveDHCommitMessage refCollab .authStateNone
          (fixtureConversation .authStateNone) fixtureDHCommitMsg)).state
        (replyOf (receiveDHCommitMessage refCollab .authStateNone
          (fixtureConversation .authStateNone) fixtureDHCommitMsg)).conv
        [fixtureDHCommitMsg, fixtureDHCommitMsg, fixtureDHCommitMsg2] = some rs ∧
      rs.length = [fixtureDHCommitMsg, fixtureDHCommitMsg, fixtureDHCommitMsg2].length ∧
      ∀ r ∈ rs, r.state = .authStateAwaitingRevealSig ∧ r.err = none ∧
        r.msg = some fixtureDHKeyMsg :=
  dhKey_retransmission_determinism refCollab refCollab_DHKeyContract
    (fixtureConversation .authStateNone) fixtureDHCommitMsg
    [fixtureDHCommitMsg, fixtureDHCommitMsg, fixtureDHCommitMsg2] _ fixtureDHKeyMsg
    (by
      intro msg hmsg
      have hcases : msg = fixtureDHCommitMsg ∨ msg = fixtureDHCommitMsg2 := by
        simp only [List.mem_cons, List.mem_singleton, List.not_mem_nil, or_false] at hmsg
        rcases hmsg with h | h | h
        · exact Or.inl h
        · exact Or.inl h
        · exact Or.inr h
      rcases hcases with h | h <;> subst h <;>
        exact refProcessDHCommit_accepts _ (by decide!))
    (by decide!) (by decide!) (by decide!)

/-- The branch of the tie-break: when both fields of the payload can be
extracted, `authStateAwaitingDHKey.receiveDHCommitMessage` resends the
DH-Commit exactly when the hash of the MPI of `c.ake.theirPublicValue` is
greater than the hash in the payload, and runs the Idle handler otherwise. -/
theorem awaitingDHKey_receiveDHCommit_branch (E : Collab) (c : Conversation) (a : Ake)
    (msg : Bytes) (hake : c.ake = some a)
    (hok : (E.extractData msg).2.2 = true ∧ (E.extractData (E.extractData msg).1).2.2 = true) :
    authStateAwaitingDHKey.receiveDHCommitMessage E c msg =
      if bytesCompare (E.sha256Sum256 (E.appendMPI [] a.theirPublicValue))
          (E.extractData (E.extractData msg).1).2.1 = 1 then
        match E.wrapMessageHeader c msgTypeDHCommit (E.serializeDHCommit c a.theirPublicValue) with
        | .error e => some ⟨c, .authStateAwaitingDHKey, none, some e⟩
        | .ok dhCommitMsg => some ⟨c, .authStateAwaitingRevealSig, some dhCommitMsg, none⟩
      else authStateNone.receiveDHCommitMessage E c msg := by
  simp only [authStateAwaitingDHKey.receiveDHCommitMessage, hok.1, hok.2, hake]
  rfl

/-- C5 (the code at the failing input). We have committed to `fixtureGy`,
whose hash `cdc8cc…` is strictly greater than the hash `c46f10…` of the
incoming DH-Commit, so the claim asks for the incoming commit to be ignored
and ours to be resent. The handler compares the hash of
`c.ake.theirPublicValue` (`ad8cb5…`, not greater) instead: its reply is the
reply of the Idle handler, a DH-Key message. -/
theorem tieBreak_compares_theirPublicValue :
    bytesCompare (sha256Sum256 (appendMPI [] (some (fixtureGy : Int))))
      (extractData (extractData tieBreakCommitBetween).1).2.1 = 1 ∧
    bytesCompare (sha256Sum256 (appendMPI [] (some 128)))
      (extractData (extractData tieBreakCommitBetween).1).2.1 = -1 ∧
    receiveDHCommitMessage refCollab .authStateAwaitingDHKey tieBreakConversation
        tieBreakCommitBetween
      = authStateNone.receiveDHCommitMessage refCollab tieBreakConversation
          tieBreakCommitBetween ∧
    ∃ r, receiveDHCommitMessage refCollab .authStateAwaitingDHKey tieBreakConversation
        tieBreakCommitBetween = some r ∧
      r.err = none ∧ r.msg = some fixtureDHKeyMsg ∧
      r.conv.keys = refWipeAndKeepRevealKeys fixtureKeys :=
  ⟨by decide!, by decide!, by decide!,
   replyOf (receiveDHCommitMessage refCollab .authStateAwaitingDHKey tieBreakConversation
      tieBreakCommitBetween), by decide!, by decide!, by decide!, by decide!⟩

/-- C6 (the code at the failing input). The incoming DH-Commit carries the
hash `85b41b…`, strictly lower than the hash `cdc8cc…` of the value we
committed to. The handler takes the resend branch, returns no error, state
`authStateAwaitingRevealSig` and the conversation unchanged, but the message
it sends is serialised from `c.ake.theirPublicValue`: it is not the DH-Commit
message we sent. -/
theorem tieBreak_resends_commit_of_theirPublicValue :
    bytesCompare (sha256Sum256 (appendMPI [] (some (fixtureGy : Int))))
      (extractData (extractData tieBreakCommitLow).1).2.1 = 1 ∧
    ∃ r out, receiveDHCommitMessage refCollab .authStateAwaitingDHKey tieBreakConversation
        tieBreakCommitLow = some r ∧
      r.err = none ∧ r.state = .authStateAwaitingRevealSig ∧ r.conv = tieBreakConversation ∧
      r.msg = some out ∧
      refWrapMessageHeader tieBreakConversation msgTypeDHCommit
        (refSerializeDHCommit tieBreakConversation (some 128)) = .ok out ∧
      tieBreakOurDHCommit ≠ .ok out :=
  ⟨by decide!,
   replyOf (receiveDHCommitMessage refCollab .authStateAwaitingDHKey tieBreakConversation
      tieBreakCommitLow),
   (replyOf (receiveDHCommitMessage refCollab .authStateAwaitingDHKey tieBreakConversation
      tieBreakCommitLow)).msg.getD [],
   by decide!, by decide!, by decide!, by decide!, by decide!, by decide!, by decide!⟩

/-- The Idle handler on a DH-Commit, when it returns an error: the state is
`authStateNone` and there is no message. -/
theorem authStateNone_receiveDHCommit_error (E : Collab) (c : Conversation) (msg : Bytes)
    (r : Reply) (h : authStateNone.receiveDHCommitMessage E c msg = some r)
    (herr : r.err ≠ none) : r.state = .authStateNone ∧ r.msg = none := by
  unfold authStateNone.receiveDHCommitMessage at h
  split at h
  · simp at h
  · simp only at h
    split at h
    · simp only [Option.some.injEq] at h; subst h; exact ⟨rfl, rfl⟩
    · split at h
      · simp only [Option.some.injEq] at h; subst h; exact ⟨rfl, rfl⟩
      · split at h
        · simp only [Option.some.injEq] at h; subst h; exact ⟨rfl, rfl⟩
        · simp only [Option.some.injEq] at h; subst h; simp at herr

/-- The handler of AwaitingRevealSig on a DH-Commit, when it returns an
error: the state is the receiver and there is no message. -/
theorem awaitingRevealSig_receiveDHCommit_error (E : Collab) (c : Conversation) (msg : Bytes)
    (r : Reply) (h : authStateAwaitingRevealSig.receiveDHCommitMessage E c msg = some r)
    (herr : r.err ≠ none) : r.state = .authStateAwaitingRevealSig ∧ r.msg = none := by
  unfold authStateAwaitingRevealSig.receiveDHCommitMessage at h
  split at h
  · simp at h
  · simp only at h
    split at h
    · simp only [Option.some.injEq] at h; subst h; exact ⟨rfl, rfl⟩
    · split at h
      · simp only [Option.some.injEq] at h; subst h; exact ⟨rfl, rfl⟩
      · simp only [Option.some.injEq] at h; subst h; simp at herr

/-- The handler of AwaitingDHKey on a DH-Commit, when it returns an error:
the state is the receiver, or `authStateNone` when the Idle handler has run,
and there is no message. -/
theorem awaitingDHKey_receiveDHCommit_error (E : Collab) (c : Conversation) (msg : Bytes)
    (r : Reply) (h : authStateAwaitingDHKey.receiveDHCommitMessage E c msg = some r)
    (herr : r.err ≠ none) :
    (r.state = .authStateAwaitingDHKey ∨ r.state = .authStateNone) ∧ r.msg = none := by
  unfold authStateAwaitingDHKey.receiveDHCommitMessage at h
  simp only at h
  split at h
  · simp only [Option.some.injEq] at h; subst h; exact ⟨Or.inl rfl, rfl⟩
  · split at h
    · simp at h
    · split at h
      · split at h
        · simp only [Option.some.injEq] at h; subst h; exact ⟨Or.inl rfl, rfl⟩
        · simp only [Option.some.injEq] at h; subst h; simp at herr
      · obtain ⟨h1, h2⟩ := authStateNone_receiveDHCommit_error E c msg r h herr
        exact ⟨Or.inr h1, h2⟩

/-- The handler of AwaitingDHKey on a DH-Key, when it returns an error: the
state is the receiver and there is no message. -/
theorem awaitingDHKey_receiveDHKey_error (E : Collab) (c : Conversation) (msg : Bytes)
    (r : Reply) (h : authStateAwaitingDHKey.receiveDHKeyMessage E c msg = some r)
    (herr : r.err ≠ none) : r.state = .authStateAwaitingDHKey ∧ r.msg = none := by
  unfold authStateAwaitingDHKey.receiveDHKeyMessage at h
  split at h
  · simp only [Option.some.injEq] at h; subst h; exact ⟨rfl, rfl⟩
  · split at h
    · simp only [Option.some.injEq] at h; subst h; exact ⟨rfl, rfl⟩
    · split at h
      · simp only [Option.some.injEq] at h; subst h; exact ⟨rfl, rfl⟩
      · split at h
        · simp at h
        · simp only [Option.some.injEq] at h; subst h; simp at herr

/-- The handler of AwaitingSig on a DH-Key, when it returns an error: the
state is the receiver and there is no message. -/
theorem awaitingSig_receiveDHKey_error (E : Collab) (m : Option Bytes) (c : Conversation)
    (msg : Bytes) (r : Reply) (h : authStateAwaitingSig.receiveDHKeyMessage E m c msg = some r)
    (herr : r.err ≠ none) : r.state = .authStateAwaitingSig m ∧ r.msg = none := by
  unfold authStateAwaitingSig.receiveDHKeyMessage at h
  split at h
  · simp only [Option.some.injEq] at h; subst h; exact ⟨rfl, rfl⟩
  · split at h <;> (simp only [Option.some.injEq] at h; subst h; simp at herr)

/-- An error of `akeHasFinished` is an error of `randMPI`: the random source
failed while the next DH key pair was generated. -/
theorem akeHasFinished_error (E : Collab) (c c1 : Conversation) (e : OtrError)
    (h : akeHasFinished E c = some (c1, some e)) :
    ∃ c3 c4, E.randMPI c3 40 = (c4, .error e) := by
  unfold akeHasFinished at h
  split at h
  · simp at h
  · simp only at h
    split at h
    · simp only [Option.some.injEq, Prod.mk.injEq] at h
      obtain ⟨_, h2⟩ := h
      unfold generateNewDHKeyPair at h2
      split at h2
      · rename_i c4 e1 hr
        simp only [Option.some.injEq] at h2
        subst h2
        exact ⟨_, c4, hr⟩
      · simp at h2
    · simp at h

/-- The handler of AwaitingRevealSig on a Reveal-Signature, when it returns
an error: either the state is the receiver and there is no message, or the
payload was accepted, the Signature message was built and framed, and the
random source failed in `akeHasFinished`: then the state is `authStateNone`
and the Signature message is returned with the error. -/
theorem awaitingRevealSig_receiveRevealSig_error (E : Collab) (c : Conversation) (msg : Bytes)
    (r : Reply) (h : authStateAwaitingRevealSig.receiveRevealSigMessage E c msg = some r)
    (herr : r.err ≠ none) :
    (r.state = .authStateAwaitingRevealSig ∧ r.msg = none) ∨
    (r.state = .authStateNone ∧
      (∃ c2 body out, E.wrapMessageHeader c2 msgTypeSig body = .ok out ∧ r.msg = some out) ∧
      ∃ c3 c4 e, E.randMPI c3 40 = (c4, .error e) ∧ r.err = some e) := by
  unfold authStateAwaitingRevealSig.receiveRevealSigMessage at h
  split at h
  · simp only [Option.some.injEq] at h; subst h; exact Or.inl ⟨rfl, rfl⟩
  · split at h
    · simp only [Option.some.injEq] at h; subst h; exact Or.inl ⟨rfl, rfl⟩
    · rename_i c2 body _
      split at h
      · simp only [Option.some.injEq] at h; subst h; exact Or.inl ⟨rfl, rfl⟩
      · rename_i out hwrap
        split at h
        · simp at h
        · simp only at h
          split at h
          · simp at h
          · rename_i c4 err hfin
            simp only [Option.some.injEq] at h; subst h
            cases err with
            | none => simp at herr
            | some e =>
              obtain ⟨c5, c6, hr⟩ := akeHasFinished_error E _ c4 e hfin
              exact Or.inr ⟨rfl, ⟨c2, body, out, hwrap, rfl⟩, c5, c6, e, hr, rfl⟩

/-- The handler of AwaitingSig on a Signature, when it returns an error:
there is no message, and the state is the receiver, or `authStateNone` when
the payload was accepted and the random source failed in `akeHasFinished`. -/
theorem awaitingSig_receiveSig_error (E : Collab) (m : Option Bytes) (c : Conversation)
    (msg : Bytes) (r : Reply) (h : authStateAwaitingSig.receiveSigMessage E m c msg = some r)
    (herr : r.err ≠ none) :
    r.msg = none ∧
    (r.state = .authStateAwaitingSig m ∨
      (r.state = .authStateNone ∧ ∃ c3 c4 e, E.randMPI c3 40 = (c4, .error e) ∧ r.err = some e)) := by
  unfold authStateAwaitingSig.receiveSigMessage at h
  split at h
  · simp only [Option.some.injEq] at h; subst h; exact ⟨rfl, Or.inl rfl⟩
  · split at h
    · simp at h
    · simp only at h
      split at h
      · simp at h
      · rename_i c3 err hfin
        simp only [Option.some.injEq] at h; subst h
        cases err with
        | none => simp at herr
        | some e =>
          obtain ⟨c5, c6, hr⟩ := akeHasFinished_error E _ c3 e hfin
          exact ⟨rfl, Or.inr ⟨rfl, c5, c6, e, hr, rfl⟩⟩

/-- C7 (counterexample). A conversation in AwaitingSig handling a DH-Commit
cut short: the handler returns the invalid-message error, and the state it
returns is `authStateNone`, not the state AwaitingSig it was invoked on;
`processAKE` stores that state, so the conversation is left in
`authStateNone` although an error is returned. -/
theorem awaitingSig_receiveDHCommit_error_returns_idle :
    (∃ r, receiveDHCommitMessage refCollab (.authStateAwaitingSig (some [0, 3, 0x11]))
        (fixtureConversation (.authStateAwaitingSig (some [0, 3, 0x11])))
        truncatedDHCommitMsg = some r ∧
      r.err = some .errInvalidOTRMessage ∧ r.state = .authStateNone ∧
      r.state ≠ .authStateAwaitingSig (some [0, 3, 0x11])) ∧
    (∃ x, processAKE refCollab (fixtureConversation (.authStateAwaitingSig (some [0, 3, 0x11])))
        msgTypeDHCommit truncatedDHCommitMsg = some x ∧
      x.err = some .errInvalidOTRMessage ∧
      x.conv.ake.map (fun a => a.state) = some .authStateNone) :=
  ⟨⟨replyOf (receiveDHCommitMessage refCollab (.authStateAwaitingSig (some [0, 3, 0x11]))
      (fixtureConversation (.authStateAwaitingSig (some [0, 3, 0x11]))) truncatedDHCommitMsg),
    by decide!, by decide!, by decide!, by decide!⟩,
   ⟨(processAKE refCollab (fixtureConversation (.authStateAwaitingSig (some [0, 3, 0x11])))
      msgTypeDHCommit truncatedDHCommitMsg).getD
        ⟨fixtureConversation .authStateNone, [], none⟩,
    by decide!, by decide!, by decide!⟩⟩

/-- The handler of AwaitingDHKey on a DH-Commit, when it returns an error:
the state is the receiver, unless both length-prefixed fields were extracted,
the hash of `c.ake.theirPublicValue` did not compare higher than the incoming
hash, and the reply is the one of the Idle handler, whose state is
`authStateNone`. -/
theorem awaitingDHKey_receiveDHCommit_error_path (E : Collab) (c : Conversation) (msg : Bytes)
    (r : Reply) (h : authStateAwaitingDHKey.receiveDHCommitMessage E c msg = some r)
    (herr : r.err ≠ none) :
    r.state = .authStateAwaitingDHKey ∨
    (r.state = .authStateNone ∧
      (E.extractData msg).2.2 = true ∧ (E.extractData (E.extractData msg).1).2.2 = true ∧
      (∃ a, c.ake = some a ∧
        bytesCompare (E.sha256Sum256 (E.appendMPI [] a.theirPublicValue))
          (E.extractData (E.extractData msg).1).2.1 ≠ 1) ∧
      authStateNone.receiveDHCommitMessage E c msg = some r) := by
  unfold authStateAwaitingDHKey.receiveDHCommitMessage at h
  simp only at h
  split at h
  · simp only [Option.some.injEq] at h; subst h; exact Or.inl rfl
  · rename_i hfields
    simp only [Bool.or_eq_true, Bool.not_eq_true', not_or, Bool.not_eq_false] at hfields
    split at h
    · simp at h
    · rename_i a hake
      split at h
      · split at h
        · simp only [Option.some.injEq] at h; subst h; exact Or.inl rfl
        · simp only [Option.some.injEq] at h; subst h; simp at herr
      · rename_i hcmp
        exact Or.inr ⟨(authStateNone_receiveDHCommit_error E c msg r h herr).1,
          hfields.1, hfields.2, ⟨a, hake, hcmp⟩, h⟩

/-- The handler of AwaitingRevealSig on a Reveal-Signature, when it returns
an error and a state other than the receiver: `processRevealSig` accepted the
payload. -/
theorem awaitingRevealSig_receiveRevealSig_error_accepted (E : Collab) (c : Conversation)
    (msg : Bytes) (r : Reply)
    (h : authStateAwaitingRevealSig.receiveRevealSigMessage E c msg = some r)
    (hne : r.state ≠ .authStateAwaitingRevealSig) : (E.processRevealSig c msg).2 = none := by
  unfold authStateAwaitingRevealSig.receiveRevealSigMessage at h
  split at h
  · simp only [Option.some.injEq] at h; subst h; exact absurd rfl hne
  · rename_i c1 hp; rw [hp]

/-- The handler of AwaitingSig on a Signature, when it returns a state other
than the receiver: `processSig` accepted the payload. -/
theorem awaitingSig_receiveSig_error_accepted (E : Collab) (m : Option Bytes) (c : Conversation)
    (msg : Bytes) (r : Reply) (h : authStateAwaitingSig.receiveSigMessage E m c msg = some r)
    (hne : r.state ≠ .authStateAwaitingSig m) : (E.processSig c msg).2 = none := by
  unfold authStateAwaitingSig.receiveSigMessage at h
  split at h
  · simp only [Option.some.injEq] at h; subst h; exact absurd rfl hne
  · rename_i c1 hp; rw [hp]

/-- C7 (amended). When a handler returns a non-nil error, the state it
returns is the state it was invoked on, except on the paths that run the Idle
handler or the completion, where it is `authStateNone`: a DH-Commit in
AwaitingSig always; a DH-Commit in AwaitingDHKey only when the tie-break hands
over to the Idle handler, that is, both length-prefixed fields were
extracted, the hash the handler computes did not compare higher than the
incoming one, and the reply is the reply of the Idle handler; and a
Reveal-Signature in AwaitingRevealSig or a Signature in AwaitingSig only when
the payload was accepted and the random source failed in `akeHasFinished`. -/
theorem error_returns_receiver_or_idle (E : Collab) (s : AuthState) (c : Conversation)
    (msg : Bytes) (r : Reply) :
    (receiveDHCommitMessage E s c msg = some r → r.err ≠ none →
      (s = .authStateNone ∨ s = .authStateAwaitingRevealSig → r.state = s) ∧
      (s = .authStateAwaitingDHKey →
        r.state = s ∨
        (r.state = .authStateNone ∧
          (E.extractData msg).2.2 = true ∧ (E.extractData (E.extractData msg).1).2.2 = true ∧
          (∃ a, c.ake = some a ∧
            bytesCompare (E.sha256Sum256 (E.appendMPI [] a.theirPublicValue))
              (E.extractData (E.extractData msg).1).2.1 ≠ 1) ∧
          authStateNone.receiveDHCommitMessage E c msg = some r)) ∧
      (∀ m, s = .authStateAwaitingSig m → r.state = .authStateNone)) ∧
    (receiveDHKeyMessage E s c msg = some r → r.err ≠ none → r.state = s) ∧
    (receiveRevealSigMessage E s c msg = some r → r.err ≠ none →
      r.state = s ∨
      (s = .authStateAwaitingRevealSig ∧ r.state = .authStateNone ∧
        (E.processRevealSig c msg).2 = none ∧
        ∃ c3 c4 e, E.randMPI c3 40 = (c4, .error e) ∧ r.err = some e)) ∧
    (receiveSigMessage E s c msg = some r → r.err ≠ none →
      r.state = s ∨
      ((∃ m, s = .authStateAwaitingSig m) ∧ r.state = .authStateNone ∧
        (E.processSig c msg).2 = none ∧
        ∃ c3 c4 e, E.randMPI c3 40 = (c4, .error e) ∧ r.err = some e)) := by
  refine ⟨?_, ?_, ?_, ?_⟩
  · intro h herr
    cases s with
    | authStateNone =>
      have hd := authStateNone_receiveDHCommit_error E c msg r h herr
      refine ⟨fun _ => hd.1, ?_, ?_⟩
      · intro hs; cases hs
      · intro m hs; cases hs
    | authStateAwaitingDHKey =>
      have hd := awaitingDHKey_receiveDHCommit_error_path E c msg r h herr
      refine ⟨?_, fun _ => hd, ?_⟩
      · intro hs; rcases hs with hs | hs <;> cases hs
      · intro m hs; cases hs
    | authStateAwaitingRevealSig =>
      have hd := awaitingRevealSig_receiveDHCommit_error E c msg r h herr
      refine ⟨fun _ => hd.1, ?_, ?_⟩
      · intro hs; cases hs
      · intro m hs; cases hs
    | authStateAwaitingSig m0 =>
      have hd := authStateNone_receiveDHCommit_error E c msg r h herr
      refine ⟨?_, ?_, fun _ _ => hd.1⟩
      · intro hs; rcases hs with hs | hs <;> cases hs
      · intro hs; cases hs
  · intro h herr
    cases s with
    | authStateNone =>
      simp only [receiveDHKeyMessage, Option.some.injEq] at h; subst h; simp at herr
    | authStateAwaitingDHKey => exact (awaitingDHKey_receiveDHKey_error E c msg r h herr).1
    | authStateAwaitingRevealSig =>
      simp only [receiveDHKeyMessage, Option.some.injEq] at h; subst h; simp at herr
    | authStateAwaitingSig m0 => exact (awaitingSig_receiveDHKey_error E m0 c msg r h herr).1
  · intro h herr
    cases s with
    | authStateNone =>
      simp only [receiveRevealSigMessage, Option.some.injEq] at h; subst h; simp at herr
    | authStateAwaitingDHKey =>
      simp only [receiveRevealSigMessage, Option.some.injEq] at h; subst h; simp at herr
    | authStateAwaitingRevealSig =>
      rcases awaitingRevealSig_receiveRevealSig_error E c msg r h herr with h1 | h1
      · exact Or.inl h1.1
      · exact Or.inr ⟨rfl, h1.1,
          awaitingRevealSig_receiveRevealSig_error_accepted E c msg r h
            (by rw [h1.1]; exact fun hf => AuthState.noConfusion hf), h1.2.2⟩
    | authStateAwaitingSig m0 =>
      simp only [receiveRevealSigMessage, Option.some.injEq] at h; subst h; simp at herr
  · intro h herr
    cases s with
    | authStateNone =>
      simp only [receiveSigMessage, Option.some.injEq] at h; subst h; simp at herr
    | authStateAwaitingDHKey =>
      simp only [receiveSigMessage, Option.some.injEq] at h; subst h; simp at herr
    | authStateAwaitingRevealSig =>
      simp only [receiveSigMessage, Option.some.injEq] at h; subst h; simp at herr
    | authStateAwaitingSig m0 =>
      rcases (awaitingSig_receiveSig_error E m0 c msg r h herr).2 with h1 | h1
      · exact Or.inl h1
      · exact Or.inr ⟨⟨m0, rfl⟩, h1.1,
          awaitingSig_receiveSig_error_accepted E m0 c msg r h
            (by rw [h1.1]; exact fun hf => AuthState.noConfusion hf), h1.2⟩

/-- C8 (counterexample). The Idle handler on a DH-Commit cut short, whose
first length-prefixed field cannot be extracted: the invalid-message error is
returned, but the key-management context has been wiped and the AKE context
holds a newly generated key pair; neither is what it was before the call. -/
theorem idle_malformed_dhCommit_not_atomic :
    (extractData truncatedDHCommitMsg).2.2 = false ∧
    ∃ r, receiveDHCommitMessage refCollab .authStateNone (fixtureConversation .authStateNone)
        truncatedDHCommitMsg = some r ∧
      r.err = some .errInvalidOTRMessage ∧
      r.conv.keys = refWipeAndKeepRevealKeys fixtureKeys ∧
      r.conv.keys ≠ (fixtureConversation .authStateNone).keys ∧
      r.conv.ake = some { fixtureAke .authStateNone with
                          secretExponent := some (fixtureY : Int),
                          ourPublicValue := some (fixtureGy : Int) } ∧
      r.conv.ake ≠ (fixtureConversation .authStateNone).ake :=
  ⟨by decide!,
   replyOf (receiveDHCommitMessage refCollab .authStateNone (fixtureConversation .authStateNone)
      truncatedDHCommitMsg),
   by decide!, by decide!, by decide!, by decide!, by decide!, by decide!⟩

/-- C8 (amended). In state AwaitingDHKey, a DH-Commit payload one of whose two
length-prefixed fields cannot be extracted makes `receiveDHCommitMessage`
return the invalid-message error, the state AwaitingDHKey and no message, and
the conversation, with its key-management context and its AKE context, is
exactly what it was before the call. -/
theorem awaitingDHKey_malformed_dhCommit_atomic (E : Collab) (c : Conversation) (msg : Bytes)
    (h : (E.extractData msg).2.2 = false ∨
      (E.extractData (E.extractData msg).1).2.2 = false) :
    receiveDHCommitMessage E .authStateAwaitingDHKey c msg =
      some ⟨c, .authStateAwaitingDHKey, none, some .errInvalidOTRMessage⟩ := by
  simp only [receiveDHCommitMessage, authStateAwaitingDHKey.receiveDHCommitMessage]
  rcases h with h | h <;> simp [h]

/-- Witness for C8 (amended): the reference collaborators, the conversation
of the tie-break fixtures and the DH-Commit cut short. -/
theorem awaitingDHKey_malformed_dhCommit_atomic_witness :
    ((refCollab.extractData truncatedDHCommitMsg).2.2 = false ∨
      (refCollab.extractData (refCollab.extractData truncatedDHCommitMsg).1).2.2 = false) ∧
    receiveDHCommitMessage refCollab .authStateAwaitingDHKey tieBreakConversation
        truncatedDHCommitMsg =
      some ⟨tieBreakConversation, .authStateAwaitingDHKey, none, some .errInvalidOTRMessage⟩ :=
  ⟨Or.inl (by decide!),
   awaitingDHKey_malformed_dhCommit_atomic refCollab tieBreakConversation truncatedDHCommitMsg
     (Or.inl (by decide!))⟩

/-- C9 (counterexample). A conversation in AwaitingRevealSig whose random
source runs dry handles a Reveal-Signature payload that is accepted: the
handler returns the error of the random source together with the framed
Signature message, not a nil message. -/
theorem awaitingRevealSig_completion_error_keeps_message :
    ∃ r, receiveRevealSigMessage refCollab .authStateAwaitingRevealSig lowEntropyConversation
        fixtureRevealSigMsg = some r ∧
      r.err = some (.collaborator 1) ∧ r.msg = some fixtureSigMsg ∧ r.msg ≠ none ∧
      r.state = .authStateNone :=
  ⟨replyOf (receiveRevealSigMessage refCollab .authStateAwaitingRevealSig lowEntropyConversation
      fixtureRevealSigMsg),
    by decide!, by decide!, by decide!, by decide!, by decide!⟩

/-- C9 (amended). When a handler returns a non-nil error, the message it
returns is nil, except for a Reveal-Signature in AwaitingRevealSig whose
payload was accepted and whose Signature message was built and framed before
the random source failed in `akeHasFinished`: then the framed Signature
message is returned together with that error. -/
theorem error_returns_no_message_unless_completion (E : Collab) (s : AuthState)
    (c : Conversation) (msg : Bytes) (r : Reply) :
    (receiveDHCommitMessage E s c msg = some r → r.err ≠ none → r.msg = none) ∧
    (receiveDHKeyMessage E s c msg = some r → r.err ≠ none → r.msg = none) ∧
    (receiveRevealSigMessage E s c msg = some r → r.err ≠ none →
      r.msg = none ∨
      (s = .authStateAwaitingRevealSig ∧
        (∃ c2 body out, E.wrapMessageHeader c2 msgTypeSig body = .ok out ∧ r.msg = some out) ∧
        ∃ c3 c4 e, E.randMPI c3 40 = (c4, .error e) ∧ r.err = some e)) ∧
    (receiveSigMessage E s c msg = some r → r.err ≠ none → r.msg = none) := by
  refine ⟨?_, ?_, ?_, ?_⟩
  · intro h herr
    cases s with
    | authStateNone => exact (authStateNone_receiveDHCommit_error E c msg r h herr).2
    | authStateAwaitingDHKey => exact (awaitingDHKey_receiveDHCommit_error E c msg r h herr).2
    | authStateAwaitingRevealSig =>
      exact (awaitingRevealSig_receiveDHCommit_error E c msg r h herr).2
    | authStateAwaitingSig m0 => exact (authStateNone_receiveDHCommit_error E c msg r h herr).2
  · intro h herr
    cases s with
    | authStateNone =>
      simp only [receiveDHKeyMessage, Option.some.injEq] at h; subst h; rfl
    | authStateAwaitingDHKey => exact (awaitingDHKey_receiveDHKey_error E c msg r h herr).2
    | authStateAwaitingRevealSig =>
      simp only [receiveDHKeyMessage, Option.some.injEq] at h; subst h; rfl
    | authStateAwaitingSig m0 => exact (awaitingSig_receiveDHKey_error E m0 c msg r h herr).2
  · intro h herr
    cases s with
    | authStateNone =>
      simp only [receiveRevealSigMessage, Option.some.injEq] at h; subst h; exact Or.inl rfl
    | authStateAwaitingDHKey =>
      simp only [receiveRevealSigMessage, Option.some.injEq] at h; subst h; exact Or.inl rfl
    | authStateAwaitingRevealSig =>
      rcases awaitingRevealSig_receiveRevealSig_error E c msg r h herr with h1 | h1
      · exact Or.inl h1.2
      · exact Or.inr ⟨rfl, h1.2.1, h1.2.2⟩
    | authStateAwaitingSig m0 =>
      simp only [receiveRevealSigMessage, Option.some.injEq] at h; subst h; exact Or.inl rfl
  · intro h herr
    cases s with
    | authStateNone =>
      simp only [receiveSigMessage, Option.some.injEq] at h; subst h; rfl
    | authStateAwaitingDHKey =>
      simp only [receiveSigMessage, Option.some.injEq] at h; subst h; rfl
    | authStateAwaitingRevealSig =>
      simp only [receiveSigMessage, Option.some.injEq] at h; subst h; rfl
    | authStateAwaitingSig m0 => exact (awaitingSig_receiveSig_error E m0 c msg r h herr).1

/-- C10. For every message type other than DH-Commit, DH-Key,
Reveal-Signature and Signature, `processAKE` returns the unknown-message-type
error and an empty batch. The conversation it leaves is `ensureAKE c`, which
no handler and no collaborator has touched: the key-management context is
unchanged, a conversation that has an AKE context is unchanged altogether,
and one that has none gets the fresh context in state `authStateNone`. -/
theorem processAKE_unknown_message_type (E : Collab) (c : Conversation) (msgType : Nat)
    (msg : Bytes)
    (h : msgType ≠ msgTypeDHCommit ∧ msgType ≠ msgTypeDHKey ∧ msgType ≠ msgTypeRevealSig ∧
      msgType ≠ msgTypeSig) :
    processAKE E c msgType msg = some ⟨ensureAKE c, [], some (.unknownMessageType msgType)⟩ ∧
    (ensureAKE c).keys = c.keys ∧
    (∀ a, c.ake = some a → ensureAKE c = c) ∧
    (c.ake = none → ensureAKE c = { c with ake := some initAKE } ∧
      initAKE.state = .authStateNone) := by
  obtain ⟨h1, h2, h3, h4⟩ := h
  refine ⟨?_, ?_, ?_, ?_⟩
  · simp [processAKE, h1, h2, h3, h4, compactMessagesWithHeader]
  · unfold ensureAKE; split <;> rfl
  · intro a ha; simp [ensureAKE, ha]
  · intro ha; simp [ensureAKE, ha, initAKE]

/-- Witness for C10: a data message (type `0x03`) handed to `processAKE` on a
conversation in AwaitingRevealSig. -/
theorem processAKE_unknown_message_type_witness :
    processAKE refCollab (fixtureConversation .authStateAwaitingRevealSig) 0x03 [1, 2, 3] =
      some ⟨ensureAKE (fixtureConversation .authStateAwaitingRevealSig), [],
        some (.unknownMessageType 0x03)⟩ ∧
    (ensureAKE (fixtureConversation .authStateAwaitingRevealSig)).keys
      = (fixtureConversation .authStateAwaitingRevealSig).keys ∧
    (∀ a, (fixtureConversation .authStateAwaitingRevealSig).ake = some a →
      ensureAKE (fixtureConversation .authStateAwaitingRevealSig)
        = fixtureConversation .authStateAwaitingRevealSig) ∧
    ((fixtureConversation .authStateAwaitingRevealSig).ake = none →
      ensureAKE (fixtureConversation .authStateAwaitingRevealSig)
        = { fixtureConversation .authStateAwaitingRevealSig with ake := some initAKE } ∧
      initAKE.state = .authStateNone) :=
  processAKE_unknown_message_type refCollab (fixtureConversation .authStateAwaitingRevealSig)
    0x03 [1, 2, 3] (by decide)

/-- The reference `processDHKey` satisfies its contract. -/
theorem refCollab_ProcessDHKeyContract : ProcessDHKeyContract refCollab := by
  refine ⟨?_, ?_⟩
  · intro c msg
    simp only [refCollab, refProcessDHKey]
    split
    · rfl
    · split
      · rfl
      · split <;> rfl
  · intro c msg h
    have h1 : (refProcessDHKey c msg).2 = (true, none) := h
    show (refProcessDHKey c msg).1 = c
    unfold refProcessDHKey at h1 ⊢
    simp only at h1 ⊢
    split at h1
    · simp at h1
    · rename_i hcond
      rw [if_neg hcond]
      cases hake : c.ake with
      | none => simp [hake] at h1
      | some a =>
        simp only [hake] at h1 ⊢
        cases ht : a.theirPublicValue with
        | none => simp [ht] at h1
        | some v => simp [ht]

/-- C11. Let `processDHKey` keep the key-management context and leave the
conversation alone on a duplicate (`ProcessDHKeyContract`). For every
conversation in AwaitingSig carrying the stored message `r` and every DH-Key
payload that `processDHKey` accepts, the handler returns the same state, still
carrying `r`, and no error, and the key-management context (send counter and
installed keys) is unchanged. If the public value is the one on file, the
message is exactly `r`, the conversation is unchanged, and handling the same
payload any number of times leaves the same state and conversation as
handling it once; if the public value differs, the message is nil. -/
theorem awaitingSig_receiveDHKey_retransmits (E : Collab) (hE : ProcessDHKeyContract E)
    (r : Option Bytes) (c : Conversation) (msg : Bytes)
    (hvalid : (E.processDHKey c msg).2.2 = none) :
    ∃ rep, receiveDHKeyMessage E (.authStateAwaitingSig r) c msg = some rep ∧
      rep.state = .authStateAwaitingSig r ∧ rep.err = none ∧ rep.conv.keys = c.keys ∧
      ((E.processDHKey c msg).2.1 = true →
        rep.msg = r ∧ rep.conv = c ∧
        ∀ n, feedDHKeys E msg (n + 1) (.authStateAwaitingSig r) c
          = feedDHKeys E msg 1 (.authStateAwaitingSig r) c) ∧
      ((E.processDHKey c msg).2.1 = false → rep.msg = none) := by
  obtain ⟨hkeys, hdup⟩ := hE
  have hk := hkeys c msg
  have hd := hdup c msg
  have hstep : ∀ b, (E.processDHKey c msg).2.1 = b →
      receiveDHKeyMessage E (.authStateAwaitingSig r) c msg =
        some ⟨(E.processDHKey c msg).1, .authStateAwaitingSig r,
          if b then r else none, none⟩ := by
    intro b hb
    simp only [receiveDHKeyMessage, authStateAwaitingSig.receiveDHKeyMessage]
    generalize E.processDHKey c msg = x at hvalid hb ⊢
    obtain ⟨c1, isSame, err⟩ := x
    simp only at hvalid hb
    subst hvalid hb
    cases isSame <;> rfl
  cases hsame : (E.processDHKey c msg).2.1 with
  | false =>
    refine ⟨_, hstep false hsame, rfl, rfl, hk, ?_, fun _ => rfl⟩
    intro h; cases h
  | true =>
    have hc : (E.processDHKey c msg).1 = c := hd (by rw [← hsame, ← hvalid])
    have hone : receiveDHKeyMessage E (.authStateAwaitingSig r) c msg =
        some ⟨c, .authStateAwaitingSig r, r, none⟩ := by
      rw [hstep true hsame, hc]; rfl
    refine ⟨_, hone, rfl, rfl, rfl, fun _ => ⟨rfl, rfl, ?_⟩, ?_⟩
    · have hfix : ∀ n, feedDHKeys E msg n (.authStateAwaitingSig r) c
          = some (.authStateAwaitingSig r, c) := by
        intro n
        induction n with
        | zero => rfl
        | succ k ih => simp only [feedDHKeys, hone]; exact ih
      intro n
      rw [hfix (n + 1), hfix 1]
    · intro h; cases h

/-- Witness for C11: the reference collaborators and a conversation in
AwaitingSig that receives again the DH-Key it has on file. -/
theorem awaitingSig_receiveDHKey_retransmits_witness :
    (refCollab.processDHKey awaitingSigConversation fixtureDHKeyPayload).2 = (true, none) ∧
    ∃ rep, receiveDHKeyMessage refCollab (.authStateAwaitingSig (some fixtureRevealSigStored))
        awaitingSigConversation fixtureDHKeyPayload = some rep ∧
      rep.state = .authStateAwaitingSig (some fixtureRevealSigStored) ∧ rep.err = none ∧
      rep.conv.keys = awaitingSigConversation.keys ∧
      ((refCollab.processDHKey awaitingSigConversation fixtureDHKeyPayload).2.1 = true →
        rep.msg = some fixtureRevealSigStored ∧ rep.conv = awaitingSigConversation ∧
        ∀ n, feedDHKeys refCollab fixtureDHKeyPayload (n + 1)
            (.authStateAwaitingSig (some fixtureRevealSigStored)) awaitingSigConversation
          = feedDHKeys refCollab fixtureDHKeyPayload 1
            (.authStateAwaitingSig (some fixtureRevealSigStored)) awaitingSigConversation) ∧
      ((refCollab.processDHKey awaitingSigConversation fixtureDHKeyPayload).2.1 = false →
        rep.msg = none) :=
  ⟨by decide!,
   awaitingSig_receiveDHKey_retransmits refCollab refCollab_ProcessDHKeyContract
     (some fixtureRevealSigStored) awaitingSigConversation fixtureDHKeyPayload (by decide!)⟩

/-- The setters of the reference collaborators satisfy their contract. -/
theorem refCollab_SettersContract : SettersContract refCollab :=
  ⟨fun _ _ => ⟨rfl, rfl⟩, fun _ _ _ => ⟨rfl, rfl, rfl⟩⟩

/-- The reference collaborators satisfy the contract of key installation. -/
theorem refCollab_KeyInstallContract : KeyInstallContract refCollab :=
  ⟨refCollab_SettersContract, refCollab_ProcessDHKeyContract.1, fun _ => rfl⟩

/-- The reference `randMPI` satisfies its contract. -/
theorem refCollab_RandomSourceContract : RandomSourceContract refCollab := by
  intro c n
  simp only [refCollab, refRandMPI]
  split <;> rfl

/-- C12 (counterexample). A conversation in AwaitingDHKey whose send counter
is `2^64 - 1` handles a DH-Key payload that validates: the handler returns
without an error, and the counter, a `uint64`, has wrapped to `0`; it is not
one greater than before. -/
theorem awaitingDHKey_receiveDHKey_counter_wraps :
    ∃ rep, receiveDHKeyMessage refCollab .authStateAwaitingDHKey
        (counterAtMaxConversation .authStateAwaitingDHKey) fixtureDHKeyPayload = some rep ∧
      rep.err = none ∧ rep.state = .authStateAwaitingSig (some fixtureRevealSigStored) ∧
      (counterAtMaxConversation .authStateAwaitingDHKey).keys.ourCounter
        = 18446744073709551615 ∧
      rep.conv.keys.ourCounter = 0 ∧
      rep.conv.keys.ourCounter
        ≠ (counterAtMaxConversation .authStateAwaitingDHKey).keys.ourCounter + 1 :=
  ⟨replyOf (receiveDHKeyMessage refCollab .authStateAwaitingDHKey
      (counterAtMaxConversation .authStateAwaitingDHKey) fixtureDHKeyPayload),
    by decide!, by decide!, by decide!, by decide!, by decide!, by decide!⟩

/-- C12 (amended). Let the setters store what they are given and let
validation and message building keep the key-management context
(`KeyInstallContract`). For every conversation in AwaitingDHKey and every
DH-Key payload that validates, when the Reveal-Signature message is built and
framed, the handler returns no error, the new state is AwaitingSig storing the
very message that is sent, the peer's current public key and our current key
pair are those of the AKE context, `ourCounter` is one greater than before
modulo `2^64`, and `sentRevealSig` is true. Whenever the handler returns an
error, the key-management context is what it was before the call. -/
theorem awaitingDHKey_receiveDHKey_installs (E : Collab) (hE : KeyInstallContract E)
    (c : Conversation) (msg : Bytes) :
    (∀ a body out,
      (E.processDHKey c msg).2.2 = none →
      (E.revealSigMessage (E.processDHKey c msg).1).2 = .ok body →
      E.wrapMessageHeader (E.revealSigMessage (E.processDHKey c msg).1).1
        msgTypeRevealSig body = .ok out →
      (E.revealSigMessage (E.processDHKey c msg).1).1.ake = some a →
      ∃ rep, receiveDHKeyMessage E .authStateAwaitingDHKey c msg = some rep ∧
        rep.err = none ∧ rep.state = .authStateAwaitingSig (some out) ∧ rep.msg = some out ∧
        rep.conv.keys.theirCurrentDHPubKey = a.theirPublicValue ∧
        rep.conv.keys.ourCurrentDHKeys = { pub := a.ourPublicValue, priv := a.secretExponent } ∧
        rep.conv.keys.ourCounter = (c.keys.ourCounter + 1) % 2 ^ 64 ∧
        rep.conv.sentRevealSig = true) ∧
    (∀ rep, receiveDHKeyMessage E .authStateAwaitingDHKey c msg = some rep → rep.err ≠ none →
      rep.conv.keys = c.keys ∧ rep.state = .authStateAwaitingDHKey ∧ rep.msg = none) := by
  obtain ⟨⟨hset1, hset2⟩, hpk, hrk⟩ := hE
  have hk1 := hpk c msg
  have hk2 := hrk (E.processDHKey c msg).1
  refine ⟨?_, ?_⟩
  · intro a body out hvalid hrev hwrap hake
    simp only [receiveDHKeyMessage, authStateAwaitingDHKey.receiveDHKeyMessage]
    generalize E.processDHKey c msg = x at hvalid hrev hwrap hake hk1 hk2 ⊢
    obtain ⟨c1, isSame, err⟩ := x
    simp only at hvalid hrev hwrap hake hk1 hk2
    subst hvalid
    simp only
    generalize E.revealSigMessage c1 = y at hrev hwrap hake hk2 ⊢
    obtain ⟨c2, res⟩ := y
    simp only at hrev hwrap hake hk2
    subst hrev
    simp only [hwrap, hake]
    refine ⟨_, rfl, rfl, rfl, rfl, ?_, ?_, ?_, rfl⟩
    · show (E.setOurCurrentDHKeys _ _ _).theirCurrentDHPubKey = _
      rw [(hset2 _ _ _).2.1, (hset1 _ _).1]
    · show (E.setOurCurrentDHKeys _ _ _).ourCurrentDHKeys = _
      rw [(hset2 _ _ _).1]
    · show ((E.setOurCurrentDHKeys _ _ _).ourCounter + 1) % 2 ^ 64 = _
      rw [(hset2 _ _ _).2.2, (hset1 _ _).2, hk2, hk1]
  · intro rep h herr
    simp only [receiveDHKeyMessage, authStateAwaitingDHKey.receiveDHKeyMessage] at h
    generalize E.processDHKey c msg = x at h hk1 hk2
    obtain ⟨c1, isSame, err⟩ := x
    simp only at hk1 hk2
    cases err with
    | some e =>
      simp only [Option.some.injEq] at h; subst h; exact ⟨hk1, rfl, rfl⟩
    | none =>
      simp only at h
      generalize E.revealSigMessage c1 = y at h hk2
      obtain ⟨c2, res⟩ := y
      simp only at hk2
      cases res with
      | error e =>
        simp only [Option.some.injEq] at h; subst h; exact ⟨hk2.trans hk1, rfl, rfl⟩
      | ok body =>
        simp only at h
        split at h
        · simp only [Option.some.injEq] at h; subst h; exact ⟨hk2.trans hk1, rfl, rfl⟩
        · split at h
          · simp at h
          · simp only [Option.some.injEq] at h; subst h; simp at herr

/-- Witness for C12 (amended): the reference collaborators, the conversation
of the fixtures in AwaitingDHKey (send counter 7) and a DH-Key payload
carrying `fixtureGy`. -/
theorem awaitingDHKey_receiveDHKey_installs_witness :
    ∃ rep, receiveDHKeyMessage refCollab .authStateAwaitingDHKey
        (fixtureConversation .authStateAwaitingDHKey) fixtureDHKeyPayload = some rep ∧
      rep.err = none ∧ rep.state = .authStateAwaitingSig (some fixtureRevealSigStored) ∧
      rep.msg = some fixtureRevealSigStored ∧
      rep.conv.keys.theirCurrentDHPubKey = some (fixtureGy : Int) ∧
      rep.conv.keys.ourCurrentDHKeys = { pub := some 32, priv := some 5 } ∧
      rep.conv.keys.ourCounter = (7 + 1) % 2 ^ 64 ∧
      rep.conv.sentRevealSig = true :=
  (awaitingDHKey_receiveDHKey_installs refCollab refCollab_KeyInstallContract
      (fixtureConversation .authStateAwaitingDHKey) fixtureDHKeyPayload).1
    { fixtureAke .authStateAwaitingDHKey with theirPublicValue := some (fixtureGy : Int) }
    (appendData (appendData [] (List.replicate 16 0)) [] ++ List.replicate 20 0)
    fixtureRevealSigStored (by decide!) (by decide!) (by decide!) (by decide!)

/-- Signalling a security event writes to the event log only. -/
theorem signalSecurityEventIf_fields (c : Conversation) (b : Bool) (e : SecurityEvent) :
    (signalSecurityEventIf c b e).msgState = c.msgState ∧
    (signalSecurityEventIf c b e).ake = c.ake ∧
    (signalSecurityEventIf c b e).keys = c.keys ∧
    (signalSecurityEventIf c b e).sentRevealSig = c.sentRevealSig ∧
    (signalSecurityEventIf c b e).events
      = c.events ++ (if b then [Event.security e] else []) := by
  unfold signalSecurityEventIf
  cases b <;> simp

/-- Under the contract of the random source, `generateNewDHKeyPair` writes to
the random source and to the key-management context only, and the latter is
either kept or replaced by the result of `keys.generateNewDHKeyPair`. -/
theorem generateNewDHKeyPair_fields (E : Collab) (hR : RandomSourceContract E)
    (c : Conversation) :
    (generateNewDHKeyPair E c).1.msgState = c.msgState ∧
    (generateNewDHKeyPair E c).1.ake = c.ake ∧
    (generateNewDHKeyPair E c).1.sentRevealSig = c.sentRevealSig ∧
    (generateNewDHKeyPair E c).1.events = c.events ∧
    ((generateNewDHKeyPair E c).1.keys = c.keys ∨
      ∃ x, (generateNewDHKeyPair E c).1.keys = E.keysGenerateNewDHKeyPair c.keys x) := by
  have hr := hR c 40
  unfold generateNewDHKeyPair
  generalize E.randMPI c 40 = x at hr ⊢
  obtain ⟨c1, res⟩ := x
  simp only at hr
  cases res with
  | error e =>
    simp only
    rw [hr]
    exact ⟨rfl, rfl, rfl, rfl, Or.inl rfl⟩
  | ok v =>
    simp only
    rw [hr]
    exact ⟨rfl, rfl, rfl, rfl, Or.inr ⟨v, rfl⟩⟩

/-- The effect of `akeHasFinished` on a conversation whose AKE context and
long-term keys are in place, under the contract of the random source. -/
theorem akeHasFinished_effect (E : Collab) (hR : RandomSourceContract E) (c : Conversation)
    (a : Ake) (k : PrivateKey) (t : Nat)
    (hake : c.ake = some a) (hour : c.ourKey = some k) (htheir : c.theirKey = some t) :
    ∃ fin, akeHasFinished E c = some fin ∧
      fin.1.msgState = .encrypted ∧ fin.1.ake = some (E.akeWipe a) ∧
      fin.1.events = c.events
        ++ (if k.PublicKey = t then [Event.message .MessageEventMessageReflected] else [])
        ++ [Event.security (if c.msgState = .encrypted then .StillSecure else .GoneSecure)] ∧
      fin.1.sentRevealSig = c.sentRevealSig ∧
      (fin.1.keys = c.keys ∨ ∃ x, fin.1.keys = E.keysGenerateNewDHKeyPair c.keys x) := by
  unfold akeHasFinished
  simp only [hake, hour, htheir]
  refine ⟨_, rfl, ?_, ?_, ?_, ?_, ?_⟩
  · simp only [(signalSecurityEventIf_fields _ _ _).1, (generateNewDHKeyPair_fields E hR _).1]
    split <;> rfl
  · simp only [(signalSecurityEventIf_fields _ _ _).2.1, (generateNewDHKeyPair_fields E hR _).2.1]
    split <;> rfl
  · simp only [(signalSecurityEventIf_fields _ _ _).2.2.2.2,
      (generateNewDHKeyPair_fields E hR _).2.2.2.1]
    by_cases heq : k.PublicKey = t <;> cases hm : c.msgState <;>
      simp [heq, hm, messageEvent]
  · simp only [(signalSecurityEventIf_fields _ _ _).2.2.2.1,
      (generateNewDHKeyPair_fields E hR _).2.2.1]
    split <;> rfl
  · simp only [(signalSecurityEventIf_fields _ _ _).2.2.1]
    have key : ∀ X : Conversation, X.keys = c.keys →
        ((generateNewDHKeyPair E X).1.keys = c.keys ∨
          ∃ x, (generateNewDHKeyPair E X).1.keys = E.keysGenerateNewDHKeyPair c.keys x) := by
      intro X hX
      rcases (generateNewDHKeyPair_fields E hR X).2.2.2.2 with h | ⟨x, h⟩
      · exact Or.inl (h.trans hX)
      · exact Or.inr ⟨x, by rw [h, hX]⟩
    apply key
    split <;> rfl

/-- C13. Completion side effects. Let `randMPI` write to the random source
only (`RandomSourceContract`). For every conversation whose AKE context and
long-term keys are in place, `akeHasFinished` returns, and afterwards: the
message state is `encrypted`; the event log has grown by the message-reflected
event exactly when our long-term public key equals their key, followed by
exactly one security event, `StillSecure` when the message state before the
call was `encrypted` and `GoneSecure` otherwise; and the AKE context is the
wiped one. -/
theorem akeHasFinished_side_effects (E : Collab) (hR : RandomSourceContract E)
    (c : Conversation) (a : Ake) (k : PrivateKey) (t : Nat)
    (hake : c.ake = some a) (hour : c.ourKey = some k) (htheir : c.theirKey = some t) :
    ∃ c1 err, akeHasFinished E c = some (c1, err) ∧
      c1.msgState = .encrypted ∧
      c1.events = c.events
        ++ (if k.PublicKey = t then [Event.message .MessageEventMessageReflected] else [])
        ++ [Event.security (if c.msgState = .encrypted then .StillSecure else .GoneSecure)] ∧
      (Event.security .GoneSecure ∈ c1.events.drop c.events.length
        ↔ c.msgState ≠ .encrypted) ∧
      (Event.security .StillSecure ∈ c1.events.drop c.events.length
        ↔ c.msgState = .encrypted) ∧
      (Event.message .MessageEventMessageReflected ∈ c1.events.drop c.events.length
        ↔ k.PublicKey = t) ∧
      c1.ake = some (E.akeWipe a) := by
  obtain ⟨fin, hfin, hms, hwipe, hev, _, _⟩ :=
    akeHasFinished_effect E hR c a k t hake hour htheir
  refine ⟨fin.1, fin.2, hfin, hms, hev, ?_, ?_, ?_, hwipe⟩
  · rw [hev, List.append_assoc, List.drop_left]
    by_cases heq : k.PublicKey = t <;> cases hm : c.msgState <;> simp [heq]
  · rw [hev, List.append_assoc, List.drop_left]
    by_cases heq : k.PublicKey = t <;> cases hm : c.msgState <;> simp [heq]
  · rw [hev, List.append_assoc, List.drop_left]
    by_cases heq : k.PublicKey = t <;> cases hm : c.msgState <;> simp [heq]

/-- Witness for C13: the reference collaborators on the conversation of the
fixtures, whose message state is `plainText` and whose two long-term keys
differ: one event is signalled, `GoneSecure`. -/
theorem akeHasFinished_side_effects_witness :
    ∃ c1 err, akeHasFinished refCollab (fixtureConversation .authStateAwaitingRevealSig)
        = some (c1, err) ∧
      c1.msgState = .encrypted ∧
      c1.events = (fixtureConversation .authStateAwaitingRevealSig).events
        ++ (if (PrivateKey.mk 11).PublicKey = 22 then
              [Event.message .MessageEventMessageReflected] else [])
        ++ [Event.security
              (if (fixtureConversation .authStateAwaitingRevealSig).msgState = .encrypted
                then .StillSecure else .GoneSecure)] ∧
      (Event.security .GoneSecure ∈
          c1.events.drop (fixtureConversation .authStateAwaitingRevealSig).events.length
        ↔ (fixtureConversation .authStateAwaitingRevealSig).msgState ≠ .encrypted) ∧
      (Event.security .StillSecure ∈
          c1.events.drop (fixtureConversation .authStateAwaitingRevealSig).events.length
        ↔ (fixtureConversation .authStateAwaitingRevealSig).msgState = .encrypted) ∧
      (Event.message .MessageEventMessageReflected ∈
          c1.events.drop (fixtureConversation .authStateAwaitingRevealSig).events.length
        ↔ (PrivateKey.mk 11).PublicKey = 22) ∧
      c1.ake = some (refCollab.akeWipe (fixtureAke .authStateAwaitingRevealSig)) :=
  akeHasFinished_side_effects refCollab refCollab_RandomSourceContract
    (fixtureConversation .authStateAwaitingRevealSig) (fixtureAke .authStateAwaitingRevealSig)
    { PublicKey := 11 } 22 rfl rfl rfl

/-- When `akeHasFinished` does not return, a pointer it dereferences is nil. -/
theorem akeHasFinished_none (E : Collab) (c : Conversation)
    (h : akeHasFinished E c = none) :
    c.ake = none ∨ c.ourKey = none ∨ c.theirKey = none := by
  unfold akeHasFinished at h
  cases hake : c.ake with
  | none => exact Or.inl rfl
  | some a =>
    cases hour : c.ourKey with
    | none => exact Or.inr (Or.inl rfl)
    | some k =>
      cases htheir : c.theirKey with
      | none => exact Or.inr (Or.inr rfl)
      | some t => simp [hake, hour, htheir] at h

/-- What a returned `akeHasFinished` has done, under the contract of the
random source. -/
theorem akeHasFinished_some (E : Collab) (hR : RandomSourceContract E) (c c1 : Conversation)
    (err : Option OtrError) (h : akeHasFinished E c = some (c1, err)) :
    ∃ a k t, c.ake = some a ∧ c.ourKey = some k ∧ c.theirKey = some t ∧
      c1.msgState = .encrypted ∧ c1.ake = some (E.akeWipe a) ∧
      c1.events = c.events
        ++ (if k.PublicKey = t then [Event.message .MessageEventMessageReflected] else [])
        ++ [Event.security (if c.msgState = .encrypted then .StillSecure else .GoneSecure)] ∧
      c1.sentRevealSig = c.sentRevealSig ∧
      (c1.keys = c.keys ∨ ∃ x, c1.keys = E.keysGenerateNewDHKeyPair c.keys x) := by
  cases hake : c.ake with
  | none => simp [akeHasFinished, hake] at h
  | some a =>
    cases hour : c.ourKey with
    | none => simp [akeHasFinished, hake, hour] at h
    | some k =>
      cases htheir : c.theirKey with
      | none => simp [akeHasFinished, hake, hour, htheir] at h
      | some t =>
        obtain ⟨fin, hfin, h1, h2, h3, h4, h5⟩ :=
          akeHasFinished_effect E hR c a k t hake hour htheir
        rw [h] at hfin
        simp only [Option.some.injEq] at hfin
        subst hfin
        exact ⟨a, k, t, rfl, rfl, rfl, h1, h2, h3, h4, h5⟩

/-- The reference collaborators satisfy the contract of the completion
handlers. -/
theorem refCollab_CompletionContract : CompletionContract refCollab := by
  refine ⟨refCollab_SettersContract, refCollab_RandomSourceContract, ?_, fun _ => rfl, ?_,
    fun _ _ => ⟨rfl, rfl⟩⟩
  · intro c msg
    simp only [refCollab, refProcessRevealSig]
    split <;> rfl
  · intro c msg
    simp only [refCollab, refProcessSig]
    split <;> rfl

/-- C14 (counterexample). A conversation in AwaitingRevealSig whose send
counter is `2^64 - 1` handles a Reveal-Signature payload that validates: the
handler returns state Idle and the Signature message, and the counter, a
`uint64`, has wrapped to `0`; it has not grown by one. -/
theorem awaitingRevealSig_receiveRevealSig_counter_wraps :
    ∃ rep, receiveRevealSigMessage refCollab .authStateAwaitingRevealSig
        (counterAtMaxConversation .authStateAwaitingRevealSig) fixtureRevealSigMsg = some rep ∧
      rep.err = none ∧ rep.state = .authStateNone ∧ rep.msg = some fixtureSigMsg ∧
      (counterAtMaxConversation .authStateAwaitingRevealSig).keys.ourCounter
        = 18446744073709551615 ∧
      rep.conv.keys.ourCounter = 0 ∧
      rep.conv.keys.ourCounter
        ≠ (counterAtMaxConversation .authStateAwaitingRevealSig).keys.ourCounter + 1 :=
  ⟨replyOf (receiveRevealSigMessage refCollab .authStateAwaitingRevealSig
      (counterAtMaxConversation .authStateAwaitingRevealSig) fixtureRevealSigMsg),
    by decide!, by decide!, by decide!, by decide!, by decide!, by decide!, by decide!⟩

/-- C14 (amended). Let the collaborators of the completion handlers keep to
their contract (`CompletionContract`). For every conversation in
AwaitingRevealSig and every Reveal-Signature payload that validates, when the
Signature message is built and framed and the long-term keys are in place,
the handler returns state Idle and the framed Signature message, the send
counter is one greater than before modulo `2^64`, `sentRevealSig` is false and
the completion side effects have run (message state `encrypted`, AKE context
wiped, events signalled). For every conversation in AwaitingSig and every
Signature payload that validates, the handler returns state Idle and no
message, the send counter is unchanged, the peer's current DH key is the
public value of the AKE context, and the completion side effects have run. -/
theorem completion_transitions (E : Collab) (hE : CompletionContract E) (c : Conversation)
    (msg : Bytes) :
    (∀ a k t body out,
      (E.processRevealSig c msg).2 = none →
      (E.sigMessage (E.processRevealSig c msg).1).2 = .ok body →
      E.wrapMessageHeader (E.sigMessage (E.processRevealSig c msg).1).1 msgTypeSig body
        = .ok out →
      (E.sigMessage (E.processRevealSig c msg).1).1.ake = some a →
      (E.sigMessage (E.processRevealSig c msg).1).1.ourKey = some k →
      (E.sigMessage (E.processRevealSig c msg).1).1.theirKey = some t →
      ∃ rep, receiveRevealSigMessage E .authStateAwaitingRevealSig c msg = some rep ∧
        rep.state = .authStateNone ∧ rep.msg = some out ∧
        rep.conv.keys.ourCounter = (c.keys.ourCounter + 1) % 2 ^ 64 ∧
        rep.conv.sentRevealSig = false ∧
        rep.conv.msgState = .encrypted ∧ rep.conv.ake = some (E.akeWipe a) ∧
        rep.conv.events = (E.sigMessage (E.processRevealSig c msg).1).1.events
          ++ (if k.PublicKey = t then [Event.message .MessageEventMessageReflected] else [])
          ++ [Event.security
                (if (E.sigMessage (E.processRevealSig c msg).1).1.msgState = .encrypted
                  then .StillSecure else .GoneSecure)]) ∧
    (∀ r a k t,
      (E.processSig c msg).2 = none →
      (E.processSig c msg).1.ake = some a →
      (E.processSig c msg).1.ourKey = some k →
      (E.processSig c msg).1.theirKey = some t →
      ∃ rep, receiveSigMessage E (.authStateAwaitingSig r) c msg = some rep ∧
        rep.state = .authStateNone ∧ rep.msg = none ∧
        rep.conv.keys.ourCounter = c.keys.ourCounter ∧
        rep.conv.keys.theirCurrentDHPubKey = a.theirPublicValue ∧
        rep.conv.msgState = .encrypted ∧ rep.conv.ake = some (E.akeWipe a) ∧
        rep.conv.events = (E.processSig c msg).1.events
          ++ (if k.PublicKey = t then [Event.message .MessageEventMessageReflected] else [])
          ++ [Event.security
                (if (E.processSig c msg).1.msgState = .encrypted
                  then .StillSecure else .GoneSecure)]) := by
  obtain ⟨⟨hset1, hset2⟩, hR, hprs, hsm, hps, hgen⟩ := hE
  refine ⟨?_, ?_⟩
  · intro a k t body out hvalid hsig hwrap hake hour htheir
    have hk1 := hprs c msg
    have hk2 := hsm (E.processRevealSig c msg).1
    simp only [receiveRevealSigMessage, authStateAwaitingRevealSig.receiveRevealSigMessage]
    generalize E.processRevealSig c msg = x at hvalid hsig hwrap hake hour htheir hk1 hk2 ⊢
    obtain ⟨c1, e⟩ := x
    simp only at hvalid hsig hwrap hake hour htheir hk1 hk2
    subst hvalid
    simp only
    generalize E.sigMessage c1 = y at hsig hwrap hake hour htheir hk2 ⊢
    obtain ⟨c2, res⟩ := y
    simp only at hsig hwrap hake hour htheir hk2
    subst hsig
    simp only [hwrap]
    split
    · rename_i hn; rw [hake] at hn; cases hn
    · rename_i a1 ha1
      have haa : a1 = a := by rw [hake] at ha1; exact (Option.some.inj ha1).symm
      subst haa
      split
      · rename_i hn
        rcases akeHasFinished_none E _ hn with h | h | h
        · simp only [hake] at h; cases h
        · simp only [hour] at h; cases h
        · simp only [htheir] at h; cases h
      · rename_i c4 err hfin
        obtain ⟨a2, k2, t2, h1, h2, h3, hms, hwipe, hev, hsent, hkeys⟩ :=
          akeHasFinished_some E hR _ c4 err hfin
        simp only [hake, hour, htheir, Option.some.injEq] at h1 h2 h3
        subst h1 h2 h3
        refine ⟨_, rfl, rfl, rfl, ?_, hsent, hms, hwipe, hev⟩
        have hctr : c4.keys.ourCounter = ((E.setOurCurrentDHKeys
            (E.setTheirCurrentDHPubKey c2.keys a1.theirPublicValue) a1.secretExponent
            a1.ourPublicValue).ourCounter + 1) % 2 ^ 64 := by
          rcases hkeys with h | ⟨x, h⟩
          · rw [h]
          · rw [h, (hgen _ _).1]
        show c4.keys.ourCounter = _
        rw [hctr, (hset2 _ _ _).2.2, (hset1 _ _).2, hk2, hk1]
  · intro r a k t hvalid hake hour htheir
    have hk1 := hps c msg
    simp only [receiveSigMessage, authStateAwaitingSig.receiveSigMessage]
    generalize E.processSig c msg = x at hvalid hake hour htheir hk1 ⊢
    obtain ⟨c1, e⟩ := x
    simp only at hvalid hake hour htheir hk1
    subst hvalid
    simp only
    split
    · rename_i hn; rw [hake] at hn; cases hn
    · rename_i a1 ha1
      have haa : a1 = a := by rw [hake] at ha1; exact (Option.some.inj ha1).symm
      subst haa
      split
      · rename_i hn
        rcases akeHasFinished_none E _ hn with h | h | h
        · simp only [hake] at h; cases h
        · simp only [hour] at h; cases h
        · simp only [htheir] at h; cases h
      · rename_i c3 err hfin
        obtain ⟨a2, k2, t2, h1, h2, h3, hms, hwipe, hev, _, hkeys⟩ :=
          akeHasFinished_some E hR _ c3 err hfin
        simp only [hake, hour, htheir, Option.some.injEq] at h1 h2 h3
        subst h1 h2 h3
        refine ⟨_, rfl, rfl, rfl, ?_, ?_, hms, hwipe, hev⟩
        · show c3.keys.ourCounter = _
          rcases hkeys with h | ⟨x, h⟩
          · rw [h]; show (E.setTheirCurrentDHPubKey _ _).ourCounter = _
            rw [(hset1 _ _).2, hk1]
          · rw [h, (hgen _ _).1]; show (E.setTheirCurrentDHPubKey _ _).ourCounter = _
            rw [(hset1 _ _).2, hk1]
        · show c3.keys.theirCurrentDHPubKey = _
          rcases hkeys with h | ⟨x, h⟩
          · rw [h]; exact (hset1 _ _).1
          · rw [h, (hgen _ _).2]; exact (hset1 _ _).1

/-- Witness for C14 (amended): the reference collaborators; the conversation
of the fixtures in AwaitingRevealSig (send counter 7) with an accepted
Reveal-Signature payload, and a conversation in AwaitingSig with an accepted
Signature payload. -/
theorem completion_transitions_witness :
    (∃ rep, receiveRevealSigMessage refCollab .authStateAwaitingRevealSig
        (fixtureConversation .authStateAwaitingRevealSig) fixtureRevealSigMsg = some rep ∧
      rep.state = .authStateNone ∧ rep.msg = some fixtureSigMsg ∧
      rep.conv.keys.ourCounter
        = ((fixtureConversation .authStateAwaitingRevealSig).keys.ourCounter + 1) % 2 ^ 64 ∧
      rep.conv.sentRevealSig = false ∧
      rep.conv.msgState = .encrypted ∧
      rep.conv.ake = some (refCollab.akeWipe (fixtureAke .authStateAwaitingRevealSig)) ∧
      rep.conv.events =
        (refCollab.sigMessage (refCollab.processRevealSig
          (fixtureConversation .authStateAwaitingRevealSig) fixtureRevealSigMsg).1).1.events
          ++ (if (PrivateKey.mk 11).PublicKey = 22
                then [Event.message .MessageEventMessageReflected] else [])
          ++ [Event.security
                (if (refCollab.sigMessage (refCollab.processRevealSig
                      (fixtureConversation .authStateAwaitingRevealSig)
                      fixtureRevealSigMsg).1).1.msgState = .encrypted
                  then .StillSecure else .GoneSecure)]) ∧
    (∃ rep, receiveSigMessage refCollab (.authStateAwaitingSig (some fixtureRevealSigStored))
        awaitingSigConversation fixtureSigPayload = some rep ∧
      rep.state = .authStateNone ∧ rep.msg = none ∧
      rep.conv.keys.ourCounter = awaitingSigConversation.keys.ourCounter ∧
      rep.conv.keys.theirCurrentDHPubKey = some (fixtureGy : Int) ∧
      rep.conv.msgState = .encrypted) :=
  ⟨(completion_transitions refCollab refCollab_CompletionContract
      (fixtureConversation .authStateAwaitingRevealSig) fixtureRevealSigMsg).1
      (fixtureAke .authStateAwaitingRevealSig) { PublicKey := 11 } 22
      (appendData [] [] ++ List.replicate 20 0) fixtureSigMsg
      (by decide!) (by decide!) (by decide!) (by decide!) (by decide!) (by decide!),
   by
    obtain ⟨rep, h1, h2, h3, h4, h5, h6, _⟩ :=
      (completion_transitions refCollab refCollab_CompletionContract
        awaitingSigConversation fixtureSigPayload).2 (some fixtureRevealSigStored)
        { fixtureAke (.authStateAwaitingSig (some fixtureRevealSigStored)) with
          theirPublicValue := some (fixtureGy : Int) } { PublicKey := 11 } 22
        (by decide!) (by decide!) (by decide!) (by decide!)
    exact ⟨rep, h1, h2, h3, h4, h5, h6⟩⟩

/-- The batch of a primary message and a retransmission has at most two
messages, and at most one when there is no retransmission. -/
theorem compactMessagesWithHeader_length (m x : Option Bytes) :
    (compactMessagesWithHeader [m, x]).length ≤ 2 ∧
    (compactMessagesWithHeader [m, none]).length ≤ 1 := by
  cases m <;> cases x <;> simp [compactMessagesWithHeader]

/-- What one case of the switch of `processAKE` has done when it returns. -/
theorem runHandler_some (E : Collab)
    (handler : Collab → AuthState → Conversation → Bytes → Option Reply) (retransmit : Bool)
    (c : Conversation) (msg : Bytes) (res : AkeResult)
    (h : runHandler E handler retransmit c msg = some res) :
    ∃ a rep c1, c.ake = some a ∧ handler E a.state c msg = some rep ∧
      setAuthState rep.conv rep.state = some c1 ∧ res.err = rep.err ∧
      (retransmit = true → res.conv = (E.maybeRetransmit c1).1 ∧
        res.toSend = compactMessagesWithHeader [rep.msg, (E.maybeRetransmit c1).2.1]) ∧
      (retransmit = false → res.conv = c1 ∧
        res.toSend = compactMessagesWithHeader [rep.msg, none]) := by
  unfold runHandler at h
  split at h
  · simp at h
  · rename_i a ha
    split at h
    · simp at h
    · rename_i rep hrep
      split at h
      · simp at h
      · rename_i c1 hc1
        refine ⟨a, rep, c1, ha, hrep, hc1, ?_⟩
        cases retransmit with
        | true =>
          simp only [if_true, Option.some.injEq] at h
          subst h
          exact ⟨rfl, fun _ => ⟨rfl, rfl⟩, fun hf => Bool.noConfusion hf⟩
        | false =>
          simp only [Bool.false_eq_true, if_false, Option.some.injEq] at h
          subst h
          exact ⟨rfl, fun hf => Bool.noConfusion hf, fun _ => ⟨rfl, rfl⟩⟩

/-- C15. Outgoing batch shape. Whenever `processAKE` returns, the batch has
at most two messages. For every message type other than Reveal-Signature and
Signature the batch has at most one message and `maybeRetransmit` is not
called: the result is the same whatever `maybeRetransmit` is. For
Reveal-Signature and Signature the batch is the primary response of the
handler followed by the message of `maybeRetransmit`, nil messages left out:
when both are present, the primary response is first. -/
theorem processAKE_batch_shape (E : Collab) (c : Conversation) (msgType : Nat) (msg : Bytes)
    (res : AkeResult) (h : processAKE E c msgType msg = some res) :
    res.toSend.length ≤ 2 ∧
    (msgType ≠ msgTypeRevealSig ∧ msgType ≠ msgTypeSig →
      res.toSend.length ≤ 1 ∧
      ∀ f, processAKE { E with maybeRetransmit := f } c msgType msg = some res) ∧
    (msgType = msgTypeRevealSig ∨ msgType = msgTypeSig →
      ∃ a rep c1, (ensureAKE c).ake = some a ∧
        (if msgType = msgTypeRevealSig then receiveRevealSigMessage E a.state (ensureAKE c) msg
          else receiveSigMessage E a.state (ensureAKE c) msg) = some rep ∧
        setAuthState rep.conv rep.state = some c1 ∧
        res.toSend = compactMessagesWithHeader [rep.msg, (E.maybeRetransmit c1).2.1] ∧
        ∀ m1 m2, rep.msg = some m1 → (E.maybeRetransmit c1).2.1 = some m2 →
          res.toSend = [m1, m2]) := by
  unfold processAKE at h
  simp only at h
  by_cases h1 : msgType = msgTypeDHCommit
  · subst h1
    simp only [if_true] at h
    obtain ⟨a, rep, c1, _, _, _, _, _, hf⟩ := runHandler_some E _ false _ msg res h
    have hlen : res.toSend.length ≤ 1 := by
      rw [(hf rfl).2]; exact (compactMessagesWithHeader_length rep.msg none).2
    refine ⟨by omega, fun _ => ⟨hlen, fun f => ?_⟩, fun hm => ?_⟩
    · rw [← h]; rfl
    · rcases hm with hm | hm <;> simp [msgTypeDHCommit, msgTypeRevealSig, msgTypeSig] at hm
  · by_cases h2 : msgType = msgTypeDHKey
    · subst h2
      simp only [h1, if_false, if_true] at h
      obtain ⟨a, rep, c1, _, _, _, _, _, hf⟩ := runHandler_some E _ false _ msg res h
      have hlen : res.toSend.length ≤ 1 := by
        rw [(hf rfl).2]; exact (compactMessagesWithHeader_length rep.msg none).2
      refine ⟨by omega, fun _ => ⟨hlen, fun f => ?_⟩, fun hm => ?_⟩
      · rw [← h]; unfold processAKE; simp only [h1, if_false, if_true]; rfl
      · rcases hm with hm | hm <;> simp [msgTypeDHKey, msgTypeRevealSig, msgTypeSig] at hm
    · by_cases h3 : msgType = msgTypeRevealSig
      · subst h3
        simp only [h1, h2, if_false, if_true] at h
        obtain ⟨a, rep, c1, ha, hrep, hc1, _, ht, _⟩ := runHandler_some E _ true _ msg res h
        refine ⟨?_, fun hne => absurd rfl hne.1, fun _ => ⟨a, rep, c1, ha, ?_, hc1, (ht rfl).2, ?_⟩⟩
        · rw [(ht rfl).2]; exact (compactMessagesWithHeader_length rep.msg _).1
        · simp only [if_true]; exact hrep
        · intro m1 m2 hm1 hm2
          rw [(ht rfl).2, hm1, hm2]; rfl
      · by_cases h4 : msgType = msgTypeSig
        · subst h4
          simp only [h1, h2, h3, if_false, if_true] at h
          obtain ⟨a, rep, c1, ha, hrep, hc1, _, ht, _⟩ := runHandler_some E _ true _ msg res h
          refine ⟨?_, fun hne => absurd rfl hne.2,
            fun _ => ⟨a, rep, c1, ha, ?_, hc1, (ht rfl).2, ?_⟩⟩
          · rw [(ht rfl).2]; exact (compactMessagesWithHeader_length rep.msg _).1
          · simp only [h3, if_false]; exact hrep
          · intro m1 m2 hm1 hm2
            rw [(ht rfl).2, hm1, hm2]; rfl
        · simp only [h1, h2, h3, h4, if_false, Option.some.injEq] at h
          subst h
          refine ⟨by simp [compactMessagesWithHeader], fun _ => ⟨by simp [compactMessagesWithHeader],
            fun f => ?_⟩, fun hm => ?_⟩
          · unfold processAKE; simp only [h1, h2, h3, h4, if_false]
          · rcases hm with hm | hm
            · exact absurd hm h3
            · exact absurd hm h4

/-- Witness for C15: the conversation of the fixtures in AwaitingRevealSig
handles an accepted Reveal-Signature while a message is pending for
retransmission: the batch is the Signature message followed by the pending
message. -/
theorem processAKE_batch_shape_witness :
    (akeResultOf (processAKE retransmittingCollab (fixtureConversation .authStateAwaitingRevealSig)
        msgTypeRevealSig fixtureRevealSigMsg)).toSend = [fixtureSigMsg, fixturePendingMsg] ∧
    (akeResultOf (processAKE retransmittingCollab (fixtureConversation .authStateAwaitingRevealSig)
        msgTypeRevealSig fixtureRevealSigMsg)).toSend.length ≤ 2 :=
  ⟨by decide!,
   (processAKE_batch_shape retransmittingCollab (fixtureConversation .authStateAwaitingRevealSig)
      msgTypeRevealSig fixtureRevealSigMsg _ (by decide!)).1⟩

/-- C16. Query round trip. For every policy set, parsing the bytes
`queryMessage` produces returns exactly the versions the policy allows among
2 and 3, 2 before 3: never version 1, and the empty list when neither is
allowed. -/
theorem parse_queryMessage_roundtrip (has : Nat → Policy → Bool) (c : Conversation) :
    parseOTRQueryMessage (queryMessage has c) =
      (if has c.Policies .allowV2 then [2] else []) ++
      (if has c.Policies .allowV3 then [3] else []) := by
  unfold queryMessage
  cases has c.Policies .allowV2 <;> cases has c.Policies .allowV3 <;> decide

/-- The loop of `acceptOTRRequest` returns the first acceptable version of the
list. -/
theorem acceptOTRRequestLoop_find (has : Nat → Policy → Bool) (p : Nat) (vs : List Nat) :
    acceptOTRRequestLoop has p vs =
      match vs.find? (fun v => decide (v = 3 ∧ has p .allowV3 = true) ||
          decide (v = 2 ∧ has p .allowV2 = true)) with
      | some v => (some (if v = 3 then OtrVersion.otrV3 else OtrVersion.otrV2), true)
      | none => (none, false) := by
  induction vs with
  | nil => rfl
  | cons v rest ih =>
    unfold acceptOTRRequestLoop
    by_cases h3 : v = 3 ∧ has p .allowV3 = true
    · simp [h3, List.find?]
    · by_cases h2 : v = 2 ∧ has p .allowV2 = true
      · have hv : v ≠ 3 := by omega
        simp [h3, h2, hv, List.find?]
      · simp only [h3, h2, if_false, ih, List.find?, decide_False, Bool.or_self]

/-- The method `sendDHCommit` returns the error of `c.dhCommitMessage()` or
none at all. -/
theorem sendDHCommit_error (Q : QueryCollab) (c c1 : Conversation) (out : Option Bytes)
    (e : OtrError) (h : sendDHCommit Q c = some (c1, out, some e)) :
    ∃ c0, (Q.dhCommitMessage c0).2.2 = some e := by
  unfold sendDHCommit at h
  simp only at h
  split at h
  · rename_i c2 toSend e2 hq
    simp only [Option.some.injEq, Prod.mk.injEq] at h
    obtain ⟨_, _, he⟩ := h
    subst he
    exact ⟨_, by rw [hq]⟩
  · split at h
    · simp at h
    · simp at h

/-- The reference collaborators of `sendDHCommit` meet `DHCommitErrorContract`:
the only error of `refDhCommitMessage` is the one of the random source. -/
theorem refQueryCollab_DHCommitErrorContract : DHCommitErrorContract refQueryCollab := by
  intro c
  show (refDhCommitMessage c).2.2 ≠ some .errInvalidVersion
  unfold refDhCommitMessage refRandMPI
  split
  · rename_i c1 e hr
    split at hr
    · simp only [Prod.mk.injEq, Except.error.injEq] at hr
      obtain ⟨_, he⟩ := hr
      subst he
      simp
    · simp at hr
  · simp

/-- C17. Version selection. `acceptOTRRequest` returns ok exactly when the
parsed version list contains 3 with V3 allowed or 2 with V2 allowed; when ok,
the version is the first such entry in the order of the query, and when not
ok the version is nil. `receiveQueryMessage` returns `errInvalidVersion`
without changing the conversation exactly in the not-ok case: when not ok it
returns that error, no message and the conversation as it was, and whenever it
returns that error at all, the query was not ok, the conversation is
unchanged and there is no message. The converse rests on
`DHCommitErrorContract`: the absent `dhCommitMessage` does not itself fail
with `errInvalidVersion`. -/
theorem acceptOTRRequest_selects_first (has : Nat → Policy → Bool) (Q : QueryCollab)
    (c : Conversation) (msg : Bytes) (hQ : DHCommitErrorContract Q) :
    ((acceptOTRRequest has c.Policies msg).2 = true ↔
      ∃ v ∈ parseOTRQueryMessage msg,
        (v = 3 ∧ has c.Policies .allowV3 = true) ∨ (v = 2 ∧ has c.Policies .allowV2 = true)) ∧
    (acceptOTRRequest has c.Policies msg =
      match (parseOTRQueryMessage msg).find? (fun v =>
          decide (v = 3 ∧ has c.Policies .allowV3 = true) ||
          decide (v = 2 ∧ has c.Policies .allowV2 = true)) with
      | some v => (some (if v = 3 then OtrVersion.otrV3 else OtrVersion.otrV2), true)
      | none => (none, false)) ∧
    ((acceptOTRRequest has c.Policies msg).2 = false →
      (acceptOTRRequest has c.Policies msg).1 = none) ∧
    ((∃ out, receiveQueryMessage has Q c msg = some (c, out, some .errInvalidVersion)) ↔
      (acceptOTRRequest has c.Policies msg).2 = false) ∧
    ((acceptOTRRequest has c.Policies msg).2 = false →
      receiveQueryMessage has Q c msg = some (c, none, some .errInvalidVersion)) ∧
    (∀ c1 out, receiveQueryMessage has Q c msg = some (c1, out, some .errInvalidVersion) →
      (acceptOTRRequest has c.Policies msg).2 = false ∧ c1 = c ∧ out = none) := by
  have hfind := acceptOTRRequestLoop_find has c.Policies (parseOTRQueryMessage msg)
  have hnot : (acceptOTRRequest has c.Policies msg).2 = false →
      receiveQueryMessage has Q c msg = some (c, none, some .errInvalidVersion) := by
    intro h
    unfold receiveQueryMessage
    split
    · rfl
    · rename_i v heq; rw [heq] at h; cases h
  have hconv : ∀ c1 out,
      receiveQueryMessage has Q c msg = some (c1, out, some .errInvalidVersion) →
      (acceptOTRRequest has c.Policies msg).2 = false ∧ c1 = c ∧ out = none := by
    intro c1 out h
    cases hok : (acceptOTRRequest has c.Policies msg).2 with
    | false =>
      rw [hnot hok] at h
      simp only [Option.some.injEq, Prod.mk.injEq] at h
      exact ⟨rfl, h.1.symm, h.2.1.symm⟩
    | true =>
      exfalso
      unfold receiveQueryMessage at h
      split at h
      · rename_i v heq; rw [heq] at hok; cases hok
      · obtain ⟨c0, he⟩ := sendDHCommit_error Q _ c1 out _ h
        exact hQ c0 he
  refine ⟨?_, hfind, ?_, ⟨?_, ?_⟩, hnot, hconv⟩
  · unfold acceptOTRRequest
    rw [hfind]
    constructor
    · intro h
      split at h
      · rename_i v hv
        have hmem := List.mem_of_find?_eq_some hv
        have hp := List.find?_some hv
        simp only [Bool.or_eq_true, decide_eq_true_eq] at hp
        exact ⟨v, hmem, hp⟩
      · simp at h
    · rintro ⟨v, hmem, hv⟩
      split
      · rfl
      · rename_i hnone
        have := List.find?_eq_none.mp hnone v hmem
        simp only [Bool.or_eq_true, decide_eq_true_eq] at this
        exact absurd hv this
  · intro h
    unfold acceptOTRRequest at h ⊢
    rw [hfind] at h ⊢
    split at h
    · cases h
    · rename_i hnone; simp only [hnone]
  · rintro ⟨out, h⟩
    exact (hconv c out h).1
  · intro h
    exact ⟨none, hnot h⟩

/-- Witness for C17: the conversation of the fixtures, whose policy set allows
no version, receives the query `?OTRv23?` with the reference collaborators:
the query is not ok, and `receiveQueryMessage` returns `errInvalidVersion`, no
message and the conversation as it was. -/
theorem acceptOTRRequest_selects_first_witness :
    DHCommitErrorContract refQueryCollab ∧
    (acceptOTRRequest bitPolicies (fixtureConversation .authStateNone).Policies
      fixtureQueryMsg).2 = false ∧
    receiveQueryMessage bitPolicies refQueryCollab (fixtureConversation .authStateNone)
        fixtureQueryMsg =
      some (fixtureConversation .authStateNone, none, some .errInvalidVersion) :=
  ⟨refQueryCollab_DHCommitErrorContract, by decide,
   (acceptOTRRequest_selects_first bitPolicies refQueryCollab
      (fixtureConversation .authStateNone) fixtureQueryMsg
      refQueryCollab_DHCommitErrorContract).2.2.2.2.1 (by decide)⟩

/-- The same query under a policy set that allows versions 2 and 3, with the
reference collaborators: the query is ok, version 2 is stored, the DH-Commit
is returned without error and the state is AwaitingDHKey. -/
theorem receiveQueryMessage_accepts_fixture_run :
    (acceptOTRRequest bitPolicies queryingConversation.Policies fixtureQueryMsg)
      = (some .otrV2, true) ∧
    ∃ c1 out, receiveQueryMessage bitPolicies refQueryCollab queryingConversation
        fixtureQueryMsg = some (c1, some out, none) ∧
      c1.version = some .otrV2 ∧ c1.ourInstanceTag = 0x100 ∧
      c1.ake.map (fun a => a.state) = some .authStateAwaitingDHKey :=
  ⟨by decide,
   ((receiveQueryMessage bitPolicies refQueryCollab queryingConversation fixtureQueryMsg).getD
      (queryingConversation, none, none)).1,
   (((receiveQueryMessage bitPolicies refQueryCollab queryingConversation fixtureQueryMsg).getD
      (queryingConversation, none, none)).2.1).getD [],
   by decide!, by decide!, by decide!, by decide!⟩

/-- The query `?OTRv23?` under a policy that allows both versions: version 2,
the first acceptable entry, is chosen, not the highest. -/
theorem acceptOTRRequest_prefers_first_listed :
    parseOTRQueryMessage [0x3f, 0x4f, 0x54, 0x52, 0x76, 0x32, 0x33, 0x3f] = [2, 3] ∧
    acceptOTRRequest bitPolicies 3 [0x3f, 0x4f, 0x54, 0x52, 0x76, 0x32, 0x33, 0x3f]
      = (some .otrV2, true) ∧
    acceptOTRRequest bitPolicies 0 [0x3f, 0x4f, 0x54, 0x52, 0x76, 0x32, 0x33, 0x3f]
      = (none, false) ∧
    parseOTRQueryMessage [0x3f, 0x4f, 0x54, 0x52, 0x3f, 0x76, 0x32, 0x3f] = [1, 2] := by
  decide

/-- Square and multiply computes the power modulo `m` when the fuel is at
least the exponent. -/
theorem modExpFuel_eq_pow (m : Nat) :
    ∀ (fuel b e : Nat), e ≤ fuel → modExpFuel fuel b e m = b ^ e % m := by
  intro fuel
  induction fuel with
  | zero =>
    intro b e he
    have : e = 0 := by omega
    subst this
    simp [modExpFuel]
  | succ n ih =>
    intro b e he
    unfold modExpFuel
    by_cases h0 : e = 0
    · subst h0; simp
    · simp only [h0, if_false]
      have hhalf : e / 2 ≤ n := by omega
      rw [ih (b * b % m) (e / 2) hhalf]
      have hsq : (b * b % m) ^ (e / 2) % m = (b * b) ^ (e / 2) % m := by
        rw [Nat.pow_mod, Nat.mod_mod, ← Nat.pow_mod]
      rw [hsq]
      by_cases h1 : e % 2 = 1
      · simp only [h1, if_true]
        have he2 : e = 2 * (e / 2) + 1 := by omega
        have hpow : b ^ e = b * (b * b) ^ (e / 2) := by
          conv_lhs => rw [he2]
          rw [pow_succ, pow_mul, pow_two, mul_comm]
        rw [hpow, Nat.mul_mod, Nat.mod_mod, ← Nat.mul_mod]
      · simp only [h1, if_false]
        have he2 : e = 2 * (e / 2) := by omega
        have hpow : b ^ e = (b * b) ^ (e / 2) := by
          conv_lhs => rw [he2]
          rw [pow_mul, pow_two]
        rw [hpow]

/-- The exponentiation of `smp.go` is the power modulo `p`. -/
theorem smpModExp_eq_pow (S : SmpParams) (g x : Nat) : smpModExp S g x = g ^ x % S.p :=
  modExpFuel_eq_pow S.p x g x (le_refl x)

/-- Exponents that are congruent modulo `q` give congruent powers of an
element whose `q`-th power is one. -/
theorem pow_congr_of_order (P Q g x y : Nat) (hord : g ^ Q % P = 1 % P)
    (hxy : x ≡ y [MOD Q]) : g ^ x % P = g ^ y % P := by
  have key : ∀ u v : Nat, u ≤ v → u ≡ v [MOD Q] → g ^ u % P = g ^ v % P := by
    intro u v huv hmod
    obtain ⟨k, hk⟩ := (Nat.modEq_iff_dvd' huv).mp hmod
    have hv : v = u + Q * k := by omega
    have hone : (g ^ Q) ^ k % P = 1 % P := by
      rw [Nat.pow_mod, hord, ← Nat.pow_mod, one_pow]
    rw [hv, pow_add, pow_mul, Nat.mul_mod, hone, ← Nat.mul_mod, mul_one]
  rcases Nat.le_total x y with h | h
  · exact key x y h hxy
  · exact (key y x h hxy.symm).symm

/-- C18. Zero-knowledge proof completeness. Let `g1 ^ q ≡ 1 (mod p)` with
`q > 0`. For every exponent `r`, every secret `a` and every index byte `ix`,
with `(c, d) = generateZKP(r, a, ix)`: `d = (r - a·c) mod q`,
`g1^d · (g1^a)^c ≡ g1^r (mod p)`, and `verifyZKP(d, g1^a mod p, c, ix)` is
true. -/
theorem verifyZKP_generateZKP (S : SmpParams) (hq : 0 < S.q)
    (hord : S.g1 ^ S.q % S.p = 1 % S.p) (r a ix : Nat) :
    ((generateZKP S r a ix).2 : Int)
      = ((r : Int) - (a : Int) * ((generateZKP S r a ix).1 : Int)) % (S.q : Int) ∧
    S.g1 ^ (generateZKP S r a ix).2 * (S.g1 ^ a % S.p) ^ (generateZKP S r a ix).1 % S.p
      = S.g1 ^ r % S.p ∧
    verifyZKP S (generateZKP S r a ix).2 (smpModExp S S.g1 a) (generateZKP S r a ix).1 ix
      = true := by
  set c := (generateZKP S r a ix).1 with hc
  set d := (generateZKP S r a ix).2 with hd
  have hcdef : c = S.hashMPIsBN ix [smpModExp S S.g1 r] := rfl
  have hnonneg : 0 ≤ ((r : Int) - (a : Int) * (c : Int)) % (S.q : Int) :=
    Int.emod_nonneg _ (by exact_mod_cast hq.ne')
  have hdInt : (d : Int) = ((r : Int) - (a : Int) * (c : Int)) % (S.q : Int) := by
    have : d = (((r : Int) - ((a * c : Nat) : Int)) % (S.q : Int)).toNat := rfl
    rw [this, Nat.cast_mul, Int.toNat_of_nonneg hnonneg]
  have hmod : d + a * c ≡ r [MOD S.q] := by
    rw [← Int.natCast_modEq_iff]
    push_cast
    rw [hdInt]
    have h1 : ((r : Int) - (a : Int) * (c : Int)) % (S.q : Int)
        ≡ (r : Int) - (a : Int) * (c : Int) [ZMOD (S.q : Int)] := Int.mod_modEq _ _
    have h2 := h1.add_right ((a : Int) * (c : Int))
    simpa using h2
  have hpow : S.g1 ^ d * (S.g1 ^ a % S.p) ^ c % S.p = S.g1 ^ r % S.p := by
    have h1 : S.g1 ^ d * (S.g1 ^ a % S.p) ^ c % S.p = S.g1 ^ (d + a * c) % S.p := by
      rw [pow_add, pow_mul, Nat.mul_mod, Nat.mul_mod (S.g1 ^ d) ((S.g1 ^ a) ^ c)]
      congr 2
      rw [Nat.pow_mod, Nat.mod_mod, ← Nat.pow_mod]
    rw [h1]
    exact pow_congr_of_order S.p S.q S.g1 _ _ hord hmod
  refine ⟨hdInt, hpow, ?_⟩
  have harg : mulMod (smpModExp S S.g1 d) (smpModExp S (smpModExp S S.g1 a) c) S.p
      = smpModExp S S.g1 r := by
    simp only [mulMod, smpModExp_eq_pow]
    rw [← Nat.mul_mod]
    exact hpow
  show eq c (S.hashMPIsBN ix
    [mulMod (smpModExp S S.g1 d) (smpModExp S (smpModExp S S.g1 a) c) S.p]) = true
  rw [harg, ← hcdef]
  simp [eq]

/-- The group of the protocol satisfies the assumption of C18: `g1 = 2` has
order dividing `q = (p - 1) / 2` modulo `p`. -/
theorem otrSmpParams_order : smpModExp otrSmpParams otrSmpParams.g1 otrSmpParams.q = 1 := by
  decide!

/-- Witness for C18: the group of the protocol, the exponent `fixtureY`, the
secret `5` and the index byte `1`. -/
theorem verifyZKP_generateZKP_witness :
    0 < otrSmpParams.q ∧
    smpModExp otrSmpParams otrSmpParams.g1 otrSmpParams.q = 1 ∧
    verifyZKP otrSmpParams (generateZKP otrSmpParams fixtureY 5 1).2
      (smpModExp otrSmpParams otrSmpParams.g1 5) (generateZKP otrSmpParams fixtureY 5 1).1 1
      = true :=
  ⟨by decide!, otrSmpParams_order,
   (verifyZKP_generateZKP otrSmpParams (by decide!)
      (by rw [← smpModExp_eq_pow, otrSmpParams_order]; decide!) fixtureY 5 1).2.2⟩

/-- The verification of `smp.go`, run on the group of the protocol: the proof
generated for the secret `5` is accepted, and it is rejected once `d` is
changed. -/
theorem verifyZKP_fixture_run :
    verifyZKP otrSmpParams (generateZKP otrSmpParams fixtureY 5 1).2
      (smpModExp otrSmpParams otrSmpParams.g1 5) (generateZKP otrSmpParams fixtureY 5 1).1 1
      = true ∧
    verifyZKP otrSmpParams ((generateZKP otrSmpParams fixtureY 5 1).2 + 1)
      (smpModExp otrSmpParams otrSmpParams.g1 5) (generateZKP otrSmpParams fixtureY 5 1).1 1
      = false := by
  decide!

/-- Appending an MPI to `l` is `l` followed by the MPI. -/
theorem appendMPI_append (l : Bytes) (x : BigInt) : appendMPI l x = l ++ appendMPI [] x := by
  cases x <;> simp [appendMPI, appendData]

/-- The function `appendMPIs` appends the MPI encodings in order. -/
theorem appendMPIs_eq (mpis : List BigInt) :
    ∀ l : Bytes, appendMPIs l mpis = l ++ (mpis.map (appendMPI [])).flatten := by
  induction mpis with
  | nil => intro l; simp [appendMPIs]
  | cons x rest ih =>
    intro l
    have h := ih (appendMPI l x)
    simp only [appendMPIs, List.foldl_cons] at h ⊢
    rw [h, appendMPI_append l x]
    simp

/-- The four bytes written for a word depend on the word modulo `2^32`; they
are its big-endian digits. -/
theorem wordBytes_mod (n : Nat) :
    wordBytes (n % 2 ^ 32) = wordBytes n ∧ (wordBytes n).length = 4 ∧
    bytesToNat (wordBytes n) = n % 2 ^ 32 := by
  refine ⟨?_, rfl, ?_⟩
  · simp only [wordBytes, List.cons.injEq, and_true]
    refine ⟨?_, ?_, ?_, ?_⟩ <;> omega
  · simp only [wordBytes, bytesToNat, List.foldl_cons, List.foldl_nil]
    omega

/-- C19. For every TLV type and every list of MPIs, `genSMPTLV` returns a TLV
whose type is the given type, whose value is the four big-endian bytes of
the count of the MPIs (a `uint32`) followed by the MPI encodings in order, and
whose `tlvLength` is the byte length of that value modulo `2^16`: it is the
true length exactly when the value is shorter than 65536 bytes. -/
theorem genSMPTLV_shape (tp : Nat) (mpis : List BigInt) :
    (genSMPTLV tp mpis).tlvType = tp ∧
    (genSMPTLV tp mpis).tlvValue
      = wordBytes mpis.length ++ (mpis.map (appendMPI [])).flatten ∧
    ((wordBytes mpis.length).length = 4 ∧
      bytesToNat (wordBytes mpis.length) = mpis.length % 2 ^ 32) ∧
    (genSMPTLV tp mpis).tlvLength = (genSMPTLV tp mpis).tlvValue.length % 2 ^ 16 ∧
    ((genSMPTLV tp mpis).tlvLength = (genSMPTLV tp mpis).tlvValue.length ↔
      (genSMPTLV tp mpis).tlvValue.length < 65536) := by
  have hval : (genSMPTLV tp mpis).tlvValue
      = wordBytes mpis.length ++ (mpis.map (appendMPI [])).flatten := by
    show appendMPIs (appendWord [] (mpis.length % 2 ^ 32)) mpis = _
    rw [appendMPIs_eq, appendWord, (wordBytes_mod mpis.length).1, List.nil_append]
  have hlen : (genSMPTLV tp mpis).tlvLength = (genSMPTLV tp mpis).tlvValue.length % 2 ^ 16 :=
    rfl
  refine ⟨rfl, hval, ⟨(wordBytes_mod _).2.1, (wordBytes_mod _).2.2⟩, hlen, ?_⟩
  rw [hlen]
  constructor
  · intro h
    have := Nat.mod_lt (genSMPTLV tp mpis).tlvValue.length (by norm_num : 0 < 2 ^ 16)
    omega
  · intro h
    exact Nat.mod_eq_of_lt (by norm_num; exact h)

/-- The function `genSMPTLV` on two MPIs: the count, then the MPIs of `1` and
of `256`, fifteen bytes in all. -/
theorem genSMPTLV_fixture_run :
    genSMPTLV 2 [some 1, some 256] =
      { tlvType := 2, tlvLength := 15,
        tlvValue := [0, 0, 0, 2, 0, 0, 0, 1, 1, 0, 0, 0, 2, 1, 0] } := by
  decide

end Otr3
